import Mathlib

/-
Verification development for the fraud-complaint ingestion pipeline
(processors/normalizer.py, processors/deduplicator.py,
processors/csv_processor.py, processors/pdf_processor.py).

Modelling conventions:
* Python strings are `List Char` (`Str`); `String` literals appear only as
  `(r"...").data` constants.
* Python numbers (int and float) are modelled as `Int` and `ℚ`.  IEEE-754
  rounding is immaterial to every claim below: all amounts and scores in
  play are exactly representable, so a rational model is faithful.
* Python dicts holding complaint records are association lists
  `List (Str × Value)`; `dict.get` takes the first matching key.
* Fallible Python coercions (`int(x)` on an arbitrary value) are `Option`.
-/

/-- Python-style text: a Python `str` as a list of characters. -/
abbrev Str : Type := List Char

/-- Characters Python treats as whitespace for `str.strip` and `\s`. -/
def pyWS (c : Char) : Bool :=
  c = ' ' ∨ c = '\t' ∨ c = '\n' ∨ c = '\r' ∨ c = '\x0b' ∨ c = '\x0c'

/-- Python `str.strip` with no argument: drop leading and trailing whitespace. -/
def trimL (l : Str) : Str := List.dropWhile pyWS l

/-- Drop trailing whitespace. -/
def trimR (l : Str) : Str := (List.dropWhile pyWS (List.reverse l)).reverse

/-- Python `str.strip()`. -/
def pyStrip (l : Str) : Str := trimR (trimL l)

/-- Python `str.lower` (ASCII; every string the pipeline compares is ASCII). -/
def pyLower (l : Str) : Str := List.map Char.toLower l

/-- Python `str.upper` (ASCII). -/
def pyUpper (l : Str) : Str := List.map Char.toUpper l

/-- Decimal digits of a natural number, most significant first; the fuel
argument (always ample) keeps the recursion structural so that the kernel
can evaluate it. -/
def natToStrAux (fuel n : Nat) : Str :=
  match fuel with
  | 0 => []
  | fuel + 1 =>
    if n < 10 then [Char.ofNat (48 + n)]
    else natToStrAux fuel (n / 10) ++ [Char.ofNat (48 + n % 10)]

/-- Decimal digits of a natural number, most significant first. -/
def natToStr (n : Nat) : Str := natToStrAux (n + 1) n

/-- Python `str(int)`: sign and decimal digits. -/
def intToStr (n : Int) : Str :=
  if n < 0 then '-' :: natToStr n.natAbs else natToStr n.natAbs

/-- Python `int(float)`: truncation toward zero. -/
def pyTrunc (q : ℚ) : Int := if 0 ≤ q then ⌊q⌋ else -⌊-q⌋

/-- Value of a string of decimal digits. -/
def digitsToNat (l : Str) : Nat :=
  List.foldl (fun a c => 10 * a + (c.toNat - 48)) 0 l

/-- Parse an optional sign, returning the sign as `1` or `-1` and the rest. -/
def signSplit (s : Str) : Int × Str :=
  match s with
  | c :: r => if c = '+' then (1, r) else if c = '-' then (-1, r) else (1, s)
  | [] => (1, s)

/-- Exponent suffix of a Python float literal: `[+-]?digits`, must use all
input; scales the mantissa by `10^±e`.  (Rationals are assembled with
`mkRat` over integer arithmetic — the value is the same as field-operation
forms, and the kernel can evaluate it.) -/
def expPart (m : ℚ) (s : Str) : Option ℚ :=
  let p := signSplit s
  let ds := List.takeWhile Char.isDigit p.2
  if ds = [] ∨ List.dropWhile Char.isDigit p.2 ≠ [] then none
  else
    let e := digitsToNat ds
    if p.1 = 1 then some (mkRat (m.num * (10 : Int) ^ e) m.den)
    else some (mkRat m.num (m.den * 10 ^ e))

/-- Python `float(str)` restricted to finite decimal literals
`[+-]? (digits [. digits?] | . digits) ([eE] [+-]? digits)?`.
`inf`/`nan` words, unicode digits and digit-group underscores are outside
the scope of every claim and rejected here. -/
def pyFloat (s : Str) : Option ℚ :=
  let p := signSplit s
  let signed : ℚ → ℚ := fun q => if p.1 = 1 then q else -q
  let ip := List.takeWhile Char.isDigit p.2
  let s2 := List.dropWhile Char.isDigit p.2
  match s2 with
  | [] => if ip = [] then none else some (signed ((digitsToNat ip : Int) : ℚ))
  | c :: r =>
    if c = '.' then
      let fp := List.takeWhile Char.isDigit r
      let s3 := List.dropWhile Char.isDigit r
      if ip = [] ∧ fp = [] then none
      else
        let mant : ℚ :=
          mkRat (digitsToNat ip * 10 ^ fp.length + digitsToNat fp : Int) (10 ^ fp.length)
        match s3 with
        | [] => some (signed mant)
        | e :: r2 => if e = 'e' ∨ e = 'E' then expPart (signed mant) r2 else none
    else if (c = 'e' ∨ c = 'E') ∧ ip ≠ [] then expPart (signed ((digitsToNat ip : Int) : ℚ)) r
    else none

/-- Python `int(str)`: optional surrounding whitespace, optional sign, digits. -/
def pyIntOfStr (s : Str) : Option Int :=
  let t := pyStrip s
  let p := signSplit t
  if p.2 ≠ [] ∧ List.all p.2 Char.isDigit then some (p.1 * (digitsToNat p.2 : Int))
  else none

/-- Boolean case-sensitive prefix test on character lists. -/
def isPrefB : Str → Str → Bool
  | [], _ => true
  | _ :: _, [] => false
  | a :: as, b :: bs => a = b ∧ isPrefB as bs

/-- Boolean substring test (Python `needle in hay`). -/
def containsSub (needle hay : Str) : Bool :=
  if isPrefB needle hay then true
  else match hay with
  | [] => false
  | _ :: r => containsSub needle r

/-- A dynamically-typed Python value as the pipeline passes them around. -/
inductive Value where
  | vStr (s : Str)
  | vInt (n : Int)
  | vFloat (q : ℚ)
  | vList (l : List Str)
  | vNone
deriving DecidableEq

open Value

/-- The single-quote character, used by the Python repr of a list. -/
def sqChar : Char := Char.ofNat 39

/-- Python `repr` of a list of strings, as `str` shows it (element escaping
is immaterial: no claim evaluates it). -/
def pyListRepr (l : List Str) : Str :=
  '[' :: (List.intercalate (", ").data (List.map (fun s => sqChar :: s ++ [sqChar]) l)) ++ [']']

/-- Digits of the fractional part of a rational, `fuel` digits at most.
Binary floats always terminate within 17 significant digits; only
decimally-terminating values occur in any claim. -/
def fracDigits (fuel : Nat) (q : ℚ) : Str :=
  match fuel with
  | 0 => []
  | n + 1 =>
    if q = 0 then []
    else
      let q10 := q * 10
      let d := ⌊q10⌋
      Char.ofNat (48 + d.toNat) :: fracDigits n (q10 - (d : ℚ))

/-- Python `str(float)` on the rational model: integral values print as
`n.0`, others with their terminating decimal expansion. -/
def floatToStr (q : ℚ) : Str :=
  let sgnPart : Str := if q < 0 then ['-'] else []
  let a := |q|
  let ip := ⌊a⌋
  let frac := a - (ip : ℚ)
  if frac = 0 then sgnPart ++ natToStr ip.toNat ++ ('.' :: ['0'])
  else sgnPart ++ natToStr ip.toNat ++ ('.' :: fracDigits 17 frac)

/-- Python `str(value)`. -/
def pyStr : Value → Str
  | vStr s => s
  | vInt n => intToStr n
  | vFloat q => floatToStr q
  | vList l => pyListRepr l
  | vNone => (r"None").data

/-- Python truthiness of a value. -/
def pyTruthy : Value → Bool
  | vStr s => s ≠ []
  | vInt n => n ≠ 0
  | vFloat q => q ≠ 0
  | vList l => l ≠ []
  | vNone => false

/-- `isinstance(v, (int, float))`. -/
def isNum : Value → Bool
  | vInt _ => true
  | vFloat _ => true
  | _ => false

/-- Numeric value of an int/float value, `0` otherwise. -/
def numVal : Value → ℚ
  | vInt n => (n : ℚ)
  | vFloat q => q
  | _ => 0

/-- Python `int(value)`: fails (raises) on non-numeric strings, lists, None. -/
def pyIntCoerce : Value → Option Int
  | vInt n => some n
  | vFloat q => some (pyTrunc q)
  | vStr s => pyIntOfStr s
  | _ => none

/-- The sentinel string `"Not Available"`. -/
def NA : Str := (r"Not Available").data

/-- The null-like tokens rejected by the normalizers (lowercased compare). -/
def nullTokens : List Str :=
  [(r"nan").data, (r"none").data, (r"null").data, (r"n/a").data, (r"na").data]

/-- The ten decimal digit characters. -/
def DIGITS : Str := ['0', '1', '2', '3', '4', '5', '6', '7', '8', '9']

/-- `normalize_string` after the strip: blank or null-like becomes the
sentinel.  (The source token list holds a second empty-string entry,
subsumed by the emptiness test.) -/
def nsBody (s : Str) : Str :=
  if s = [] ∨ pyLower s ∈ nullTokens then NA else s

/-- normalizer.py `normalize_string`: None/blank/null-like becomes the
sentinel, anything else is trimmed. -/
def normalize_string (v : Value) : Str :=
  match v with
  | vNone => NA
  | _ => nsBody (pyStrip (pyStr v))

/-- The character class `[₹,Rs\.\s]` with `re.IGNORECASE`, as
normalizer.py `normalize_amount` strips it: the rupee sign, comma, the
letters R/r/S/s, the full stop, and whitespace. -/
def amountStripCI (c : Char) : Bool :=
  c = '₹' ∨ c = ',' ∨ c = 'R' ∨ c = 'r' ∨ c = 'S' ∨ c = 's' ∨ c = '.' ∨ pyWS c

/-- `normalize_amount` on a stripped string: null-like yields `0.0`, else
drop the currency characters and parse, with `0.0` on failure. -/
def naBody (s : Str) : ℚ :=
  if s = [] ∨ pyLower s ∈ nullTokens then 0
  else
    match pyFloat (List.filter (fun c => ¬ amountStripCI c) s) with
    | some q => q
    | none => 0

/-- normalizer.py `normalize_amount`. -/
def normalize_amount (v : Value) : ℚ :=
  match v with
  | vNone => 0
  | vInt n => (n : ℚ)
  | vFloat q => q
  | _ => naBody (pyStrip (pyStr v))

/-- The substring `"e+"`. -/
def ePlus : Str := (r"e+").data

/-- The substring `"e-"`. -/
def eMinus : Str := (r"e-").data

/-- `normalize_complaint_id` on a stripped string: blank or null-like is
the sentinel; a value in exponential notation whose magnitude exceeds
`1e10` is reconstructed as the integer digit string. -/
def ncidBody (s : Str) : Str :=
  if s = [] ∨ pyLower s ∈ nullTokens then NA
  else if containsSub ePlus (pyLower s) ∨ containsSub eMinus (pyLower s) then
    match pyFloat s with
    | some q => if q > (10 : ℚ) ^ (10 : ℕ) then intToStr (pyTrunc q) else s
    | none => s
  else s

/-- normalizer.py `normalize_complaint_id`: like `normalize_string`, and
recover identifiers corrupted into exponential notation (magnitude above
`1e10`) back to their integer digit string. -/
def normalize_complaint_id (v : Value) : Str :=
  match v with
  | vNone => NA
  | _ => ncidBody (pyStrip (pyStr v))

/-- A calendar date. -/
structure Date where
  y : Int
  m : Nat
  d : Nat
deriving DecidableEq

/-- Gregorian leap year. -/
def isLeap (y : Int) : Bool := y % 4 = 0 ∧ (y % 100 ≠ 0 ∨ y % 400 = 0)

/-- Days in a month. -/
def daysInMonth (y : Int) (m : Nat) : Nat :=
  if m = 2 then (if isLeap y then 29 else 28)
  else if m = 4 ∨ m = 6 ∨ m = 9 ∨ m = 11 then 30 else 31

/-- Calendar validity as the datetime libraries enforce it. -/
def validDate (y : Int) (m d : Nat) : Bool :=
  1 ≤ m ∧ m ≤ 12 ∧ 1 ≤ d ∧ d ≤ daysInMonth y m

/-- Day number of a civil date (days since 1970-01-01, Hinnant algorithm);
differences of these are the `.days` of a timestamp difference. -/
def civilDays (dt : Date) : Int :=
  let y := if dt.m ≤ 2 then dt.y - 1 else dt.y
  let era := Int.fdiv y 400
  let yoe := (y - era * 400).toNat
  let mp := (dt.m + 9) % 12
  let doy := (153 * mp + 2) / 5 + dt.d - 1
  let doe := yoe * 365 + yoe / 4 - yoe / 100 + doy
  era * 146097 + (doe : Int) - 719468

/-- Read exactly `n` digits from the front. -/
def readDigits (n : Nat) (s : Str) : Option (Nat × Str) :=
  let ds := List.take n s
  if ds.length = n ∧ List.all ds Char.isDigit then some (digitsToNat ds, List.drop n s)
  else none

/-- Read one literal character. -/
def readChar (c : Char) (s : Str) : Option Str :=
  match s with
  | x :: r => if x = c then some r else none
  | [] => none

/-- Parse `YYYY-MM-DD` exactly, with calendar validation. -/
def parseISODate (s : Str) : Option Date := do
  let (y, s1) ← readDigits 4 s
  let s2 ← readChar '-' s1
  let (m, s3) ← readDigits 2 s2
  let s4 ← readChar '-' s3
  let (d, s5) ← readDigits 2 s4
  if s5 = [] ∧ validDate y m d then some ⟨y, m, d⟩ else none

/-- pandas `to_datetime`, modelled on the pipeline canonical `YYYY-MM-DD`
form (pandas accepts further layouts; every date the pipeline feeds to it
is either ISO or unparsable, and no claim depends on other layouts). -/
def pdToDatetime (s : Str) : Option Date := parseISODate s

/-- Zero-pad a digit string on the left to width `w`. -/
def padZ (w : Nat) (s : Str) : Str := List.replicate (w - s.length) '0' ++ s

/-- `strftime` with format `%Y-%m-%d`. -/
def formatDate (dt : Date) : Str :=
  (if dt.y < 0 then ['-'] else []) ++ padZ 4 (natToStr dt.y.natAbs)
    ++ '-' :: padZ 2 (natToStr dt.m) ++ '-' :: padZ 2 (natToStr dt.d)

/-- A complaint record: a Python dict of field name to value. -/
abbrev Complaint : Type := List (Str × Value)

/-- Python `dict.get(k, dflt)`. -/
def cget (c : Complaint) (k : Str) (dflt : Value) : Value :=
  match c with
  | [] => dflt
  | p :: r => if p.1 = k then p.2 else cget r k dflt

/-- Python `dict.get(k)` (None when missing, as `pd.notna` sees it). -/
def cgetOpt (c : Complaint) (k : Str) : Option Value :=
  match c with
  | [] => none
  | p :: r => if p.1 = k then some p.2 else cgetOpt r k

/-- Python `dict[k] = v`.  Only `cget` observes records downstream, so
prepending realizes dict-update semantics. -/
def cset (c : Complaint) (k : Str) (v : Value) : Complaint := (k, v) :: c

def kComplaintID : Str := (r"Complaint_ID").data
def kComplaintDate : Str := (r"Complaint_Date").data
def kIncidentDate : Str := (r"Incident_Date").data
def kCategory : Str := (r"Category").data
def kSubCategory : Str := (r"Sub_Category").data
def kDistrict : Str := (r"District").data
def kState : Str := (r"State").data
def kAmountLost : Str := (r"Amount_Lost").data
def kStatus : Str := (r"Status").data
def kTransactionCount : Str := (r"Transaction_Count").data
def kDataQualityScore : Str := (r"Data_Quality_Score").data
def kInvestigationReady : Str := (r"Investigation_Ready").data
def kReportingDelayDays : Str := (r"Reporting_Delay_Days").data
def kReportingDelayStatus : Str := (r"Reporting_Delay_Status").data
def kTransactionPattern : Str := (r"Transaction_Pattern").data
def kSourceFileType : Str := (r"Source_File_Type").data
def kTransactionIDs : Str := (r"Transaction_IDs").data
def kBankPlatformInfo : Str := (r"Bank_Platform_Info").data

/-- deduplicator.py `COLUMNS`: the fixed 16-column schema. -/
def COLUMNS : List Str :=
  [kComplaintID, kComplaintDate, kIncidentDate, kCategory, kSubCategory,
   kDistrict, kState, kAmountLost, kStatus, kTransactionCount,
   kDataQualityScore, kInvestigationReady, kReportingDelayDays,
   kReportingDelayStatus, kTransactionPattern, kSourceFileType]

def sYES : Str := (r"YES").data
def sNO : Str := (r"NO").data
def sDELAYED : Str := (r"DELAYED").data
def sONTIME : Str := (r"ON_TIME").data
def sNOTAVAILSTATUS : Str := (r"NOT_AVAILABLE").data
def sSINGLELARGE : Str := (r"SINGLE_LARGE").data
def sMULTIPLESMALL : Str := (r"MULTIPLE_SMALL").data
def sMIXED : Str := (r"MIXED").data
def sUNKNOWN : Str := (r"UNKNOWN").data
def sPending : Str := (r"Pending").data

/-- deduplicator.py `calculate_data_quality_score`: +20 for each of
identifier, complaint date, positive numeric amount, district and state,
positive numeric transaction count. -/
def calculate_data_quality_score (c : Complaint) : Int :=
  let cid := pyStrip (pyStr (cget c kComplaintID (vStr [])))
  let score : Int := if cid ≠ [] ∧ cid ≠ NA then 20 else 0
  let cdate := pyStrip (pyStr (cget c kComplaintDate (vStr [])))
  let score := if cdate ≠ [] ∧ cdate ≠ NA then score + 20 else score
  let amount := cget c kAmountLost (vInt 0)
  let score := if isNum amount ∧ numVal amount > 0 then score + 20 else score
  let district := pyStrip (pyStr (cget c kDistrict (vStr [])))
  let state := pyStrip (pyStr (cget c kState (vStr [])))
  let score := if district ≠ [] ∧ district ≠ NA ∧ state ≠ [] ∧ state ≠ NA then score + 20 else score
  let tc := cget c kTransactionCount (vInt 0)
  let score := if isNum tc ∧ numVal tc > 0 then score + 20 else score
  score

/-- deduplicator.py `calculate_investigation_readiness`. -/
def calculate_investigation_readiness (c : Complaint) : Str :=
  let amount := cget c kAmountLost (vInt 0)
  let amountOk := isNum amount ∧ numVal amount > 0
  let tc := cget c kTransactionCount (vInt 0)
  let tcOk := isNum tc ∧ numVal tc > 0
  let bank := pyStrip (pyStr (cget c kBankPlatformInfo (vStr [])))
  let bankOk := bank ≠ [] ∧ bank ≠ NA
  if amountOk ∧ tcOk ∧ bankOk then sYES else sNO

/-- deduplicator.py `calculate_reporting_delay`. -/
def calculate_reporting_delay (c : Complaint) : Int × Str :=
  let cd := pyStrip (pyStr (cget c kComplaintDate (vStr [])))
  let idt := pyStrip (pyStr (cget c kIncidentDate (vStr [])))
  if cd = [] ∨ cd = NA then (0, sNOTAVAILSTATUS)
  else if idt = [] ∨ idt = NA then (0, sNOTAVAILSTATUS)
  else
    match pdToDatetime cd, pdToDatetime idt with
    | some a, some b =>
      let delay := civilDays a - civilDays b
      (delay, if delay > 7 then sDELAYED else sONTIME)
    | _, _ => (0, sNOTAVAILSTATUS)

/-- deduplicator.py `calculate_transaction_pattern`. -/
def calculate_transaction_pattern (c : Complaint) : Str :=
  let tcv := cget c kTransactionCount (vInt 0)
  let av := cget c kAmountLost (vInt 0)
  let tc := if isNum tcv then numVal tcv else 0
  let am := if isNum av then numVal av else 0
  if tc = 1 ∧ am > 50000 then sSINGLELARGE
  else if tc > 1 then
    let avg := if tc > 0 then am / tc else 0
    if avg < 10000 then sMULTIPLESMALL else sMIXED
  else sMIXED

/-- deduplicator.py `apply_intelligence_features`, one record: all four
features are computed from the incoming record and written onto a copy. -/
def apply_features (c : Complaint) : Complaint :=
  let dqs := calculate_data_quality_score c
  let ir := calculate_investigation_readiness c
  let rd := calculate_reporting_delay c
  let tp := calculate_transaction_pattern c
  cset (cset (cset (cset (cset c kDataQualityScore (vInt dqs))
    kInvestigationReady (vStr ir)) kReportingDelayDays (vInt rd.1))
    kReportingDelayStatus (vStr rd.2)) kTransactionPattern (vStr tp)

/-- deduplicator.py `apply_intelligence_features`. -/
def apply_intelligence_features (cs : List Complaint) : List Complaint :=
  List.map apply_features cs

/-- A row of the master store: the fixed 16-column record the row builder
emits (dict with exactly the schema keys, here a structure plus
`rowPairs` for the key view). -/
structure MasterRow where
  complaintId : Value
  complaintDate : Value
  incidentDate : Value
  category : Value
  subCategory : Value
  district : Value
  state : Value
  amountLost : Value
  status : Value
  transactionCount : Value
  dataQualityScore : Value
  investigationReady : Value
  reportingDelayDays : Value
  reportingDelayStatus : Value
  transactionPattern : Value
  sourceFileType : Value
deriving DecidableEq

/-- The row as the source dict literal lists it: schema order. -/
def rowPairs (row : MasterRow) : List (Str × Value) :=
  [(kComplaintID, row.complaintId), (kComplaintDate, row.complaintDate),
   (kIncidentDate, row.incidentDate), (kCategory, row.category),
   (kSubCategory, row.subCategory), (kDistrict, row.district),
   (kState, row.state), (kAmountLost, row.amountLost),
   (kStatus, row.status), (kTransactionCount, row.transactionCount),
   (kDataQualityScore, row.dataQualityScore),
   (kInvestigationReady, row.investigationReady),
   (kReportingDelayDays, row.reportingDelayDays),
   (kReportingDelayStatus, row.reportingDelayStatus),
   (kTransactionPattern, row.transactionPattern),
   (kSourceFileType, row.sourceFileType)]

/-- `int(raw) if raw else 0` (fails, like Python `int`, on unreadable input). -/
def intIfTruthy (raw : Value) : Option Int :=
  if pyTruthy raw then pyIntCoerce raw else some 0

/-- deduplicator.py `build_row_from_complaint`: project onto the fixed
schema with explicit per-column coercion and per-column defaults. -/
def build_row_from_complaint (c : Complaint) (source_file_type : Str) : Option MasterRow := do
  let complaint_id := normalize_complaint_id (cget c kComplaintID (vStr []))
  let complaint_date := normalize_string (cget c kComplaintDate (vStr []))
  let incident_date := normalize_string (cget c kIncidentDate (vStr []))
  let category := normalize_string (cget c kCategory (vStr []))
  let sub_category := normalize_string (cget c kSubCategory (vStr []))
  let district := normalize_string (cget c kDistrict (vStr []))
  let state := normalize_string (cget c kState (vStr []))
  let amount_lost := normalize_amount (cget c kAmountLost (vInt 0))
  let status := normalize_string (cget c kStatus (vStr sPending))
  let transaction_count ← intIfTruthy (cget c kTransactionCount (vInt 0))
  let data_quality_score ← intIfTruthy (cget c kDataQualityScore (vInt 0))
  let investigation_ready := pyStr (cget c kInvestigationReady (vStr sNO))
  let reporting_delay_days ← intIfTruthy (cget c kReportingDelayDays (vInt 0))
  let reporting_delay_status := pyStr (cget c kReportingDelayStatus (vStr sUNKNOWN))
  let transaction_pattern := pyStr (cget c kTransactionPattern (vStr sMIXED))
  let source_file_type_str := pyUpper source_file_type
  pure { complaintId := vStr complaint_id
         complaintDate := vStr complaint_date
         incidentDate := vStr incident_date
         category := vStr category
         subCategory := vStr sub_category
         district := vStr district
         state := vStr state
         amountLost := vFloat amount_lost
         status := vStr status
         transactionCount := vInt transaction_count
         dataQualityScore := vInt data_quality_score
         investigationReady := vStr investigation_ready
         reportingDelayDays := vInt reporting_delay_days
         reportingDelayStatus := vStr reporting_delay_status
         transactionPattern := vStr transaction_pattern
         sourceFileType := vStr source_file_type_str }

/-- pandas `to_numeric(errors = coerce)` per cell. -/
def pdToNumeric : Value → Option ℚ
  | vInt n => some (n : ℚ)
  | vFloat q => some q
  | vStr s => pyFloat (pyStrip s)
  | _ => none

/-- The per-column `astype` pass of deduplicator.py (lines 476-492 and the
body of `safe_write_excel`): string columns to `str`, the amount to float
with NaN filled by `0.0`, the three count columns to integers. -/
def coerceRow (r : MasterRow) : MasterRow :=
  { complaintId := vStr (pyStr r.complaintId)
    complaintDate := vStr (pyStr r.complaintDate)
    incidentDate := vStr (pyStr r.incidentDate)
    category := vStr (pyStr r.category)
    subCategory := vStr (pyStr r.subCategory)
    district := vStr (pyStr r.district)
    state := vStr (pyStr r.state)
    amountLost := vFloat ((pdToNumeric r.amountLost).getD 0)
    status := vStr (pyStr r.status)
    transactionCount := vInt (pyTrunc ((pdToNumeric r.transactionCount).getD 0))
    dataQualityScore := vInt (pyTrunc ((pdToNumeric r.dataQualityScore).getD 0))
    investigationReady := vStr (pyStr r.investigationReady)
    reportingDelayDays := vInt (pyTrunc ((pdToNumeric r.reportingDelayDays).getD 0))
    reportingDelayStatus := vStr (pyStr r.reportingDelayStatus)
    transactionPattern := vStr (pyStr r.transactionPattern)
    sourceFileType := vStr (pyStr r.sourceFileType) }

/-- deduplicator.py `safe_write_excel` as it affects stored content: the
schema is already fixed here, so only the type re-assertion remains
(column widths and cell number formats are cosmetic). -/
def safe_write_excel (store : List MasterRow) : List MasterRow :=
  List.map coerceRow store

/-- `str(row[Complaint_ID]).strip()`: the identifier key under which the
merge engine compares rows. -/
def rowKey (r : MasterRow) : Str := pyStrip (pyStr r.complaintId)

/-- The existing-identifier set: every stored identifier, stringified and
trimmed (deduplicator.py line 441). -/
def existingIds (store : List MasterRow) : List Str :=
  List.map rowKey store

/-- The dedup filter (deduplicator.py lines 444-450): walk new rows in
order, accept when the trimmed identifier is non-empty, non-sentinel and
unseen, adding accepted identifiers to the set at once. -/
def filterNewRows (ids : List Str) (rows : List MasterRow) : List MasterRow × List Str :=
  match rows with
  | [] => ([], ids)
  | row :: rest =>
    if rowKey row ≠ [] ∧ rowKey row ≠ NA ∧ rowKey row ∉ ids then
      let out := filterNewRows (rowKey row :: ids) rest
      (row :: out.1, out.2)
    else filterNewRows ids rest

/-- The row-building loop of `append_to_master_excel` (lines 386-389):
one built row per enriched complaint, failing if any build fails. -/
def buildRows (cs : List Complaint) (tag : Str) : Option (List MasterRow) :=
  match cs with
  | [] => some []
  | c :: rest => do
    let row ← build_row_from_complaint c tag
    let rows ← buildRows rest tag
    pure (row :: rows)

/-- deduplicator.py `append_to_master_excel`, from the point where the
persisted store has been read back as typed rows: enrich, build rows,
filter against existing identifiers, append, re-assert column types, and
write (which re-asserts them again).  Returns `(new_count, total_count)`
with the persisted store. -/
def append_to_master_excel (existing : List MasterRow) (complaints : List Complaint)
    (source_file_type : Str) : Option (Nat × Nat × List MasterRow) := do
  let enhanced := apply_intelligence_features complaints
  let new_rows ← buildRows enhanced source_file_type
  let ids := existingIds existing
  let filtered := (filterNewRows ids new_rows).1
  let new_count := filtered.length
  let combined := List.map coerceRow (existing ++ filtered)
  let store := safe_write_excel combined
  pure (new_count, store.length, store)

/-- A sequence of merges starting from the given store: each batch is
appended through the merge engine and the persisted store threads on. -/
def runMergesFrom (store : List MasterRow) :
    List (List Complaint × Str) → Option (List MasterRow)
  | [] => some store
  | b :: rest => do
    let out ← append_to_master_excel store b.1 b.2
    runMergesFrom out.2.2 rest

/-- A sequence of merges starting from the empty store. -/
def runMerges (batches : List (List Complaint × Str)) : Option (List MasterRow) :=
  runMergesFrom [] batches

/-- Scenario A of the spec, literally: `Amount_Lost` is the string
`"60,000"` as the row spells it. -/
def scenarioRowRaw : Complaint :=
  [(kComplaintID, vStr (r"1234567890").data),
   (kComplaintDate, vStr (r"2024-01-10").data),
   (kIncidentDate, vStr (r"2024-01-01").data),
   (kAmountLost, vStr (r"60,000").data),
   (kTransactionCount, vInt 1),
   (kBankPlatformInfo, vStr (r"SBI").data)]

/-- Scenario A after the tabular pipeline has parsed the amount:
`Amount_Lost` is the number `60000.0`. -/
def scenarioRowNormalized : Complaint :=
  [(kComplaintID, vStr (r"1234567890").data),
   (kComplaintDate, vStr (r"2024-01-10").data),
   (kIncidentDate, vStr (r"2024-01-01").data),
   (kAmountLost, vFloat 60000),
   (kTransactionCount, vInt 1),
   (kBankPlatformInfo, vStr (r"SBI").data)]

/-- A minimal complaint carrying only a valid identifier, used to witness
the merge-engine theorems on concrete runs. -/
def sampleComplaint : Complaint := [(kComplaintID, vStr (r"1234567890").data)]

/-- The master row the pipeline builds from `sampleComplaint` (enriched,
built, and already in canonical column types). -/
def sampleRow : MasterRow :=
  { complaintId := vStr (r"1234567890").data
    complaintDate := vStr NA
    incidentDate := vStr NA
    category := vStr NA
    subCategory := vStr NA
    district := vStr NA
    state := vStr NA
    amountLost := vFloat 0
    status := vStr sPending
    transactionCount := vInt 0
    dataQualityScore := vInt 20
    investigationReady := vStr sNO
    reportingDelayDays := vInt 0
    reportingDelayStatus := vStr sNOTAVAILSTATUS
    transactionPattern := vStr sMIXED
    sourceFileType := vStr (r"CSV").data }

/-- csv_processor.py `normalize_column_name`: the fixed case-insensitive
header synonym table. -/
def csvColMappings : List (Str × Str) :=
  [((r"complaint id").data, kComplaintID),
   ((r"acknowledgement number").data, kComplaintID),
   ((r"ack number").data, kComplaintID),
   ((r"complaint number").data, kComplaintID),
   ((r"complaint date").data, kComplaintDate),
   ((r"date of complaint").data, kComplaintDate),
   ((r"filed date").data, kComplaintDate),
   ((r"incident date").data, kIncidentDate),
   ((r"date of incident").data, kIncidentDate),
   ((r"occurred date").data, kIncidentDate),
   ((r"category").data, kCategory),
   ((r"complaint category").data, kCategory),
   ((r"sub category").data, kSubCategory),
   ((r"subcategory").data, kSubCategory),
   ((r"district").data, kDistrict),
   ((r"state").data, kState),
   ((r"amount").data, kAmountLost),
   ((r"fraudulent amount").data, kAmountLost),
   ((r"total amount").data, kAmountLost),
   ((r"amount lost").data, kAmountLost),
   ((r"status").data, kStatus),
   ((r"complaint status").data, kStatus),
   ((r"transaction id").data, kTransactionIDs),
   ((r"transaction").data, kTransactionIDs),
   ((r"utr").data, kTransactionIDs),
   ((r"bank").data, kBankPlatformInfo),
   ((r"platform").data, kBankPlatformInfo)]

/-- csv_processor.py `normalize_column_name`: strip, look the lowercase
form up in the synonym table, else keep the (stripped) name. -/
def normalize_column_name (col : Str) : Str :=
  let c := pyStrip col
  match List.find? (fun p => p.1 = pyLower c) csvColMappings with
  | some p => p.2
  | none => c

/-- Rename every column of a row through `normalize_column_name` (the
source renames `df.columns` once; per-row renaming is the same map). -/
def normalizeHeaders (row : Complaint) : Complaint :=
  List.map (fun p => (normalize_column_name p.1, p.2)) row

/-- The two-digit-year pivot of `strptime`: 00-68 is 2000s, 69-99 1900s. -/
def y2ToYear (v : Nat) : Int := if v ≤ 68 then 2000 + v else 1900 + v

/-- `strptime` with format `%d<sep>%m<sep>%Y` (zero-padded fields, as the
pipeline data carries them), with calendar validation. -/
def parseDMY4 (sep : Char) (s : Str) : Option Date := do
  let p1 ← readDigits 2 s
  let s2 ← readChar sep p1.2
  let p2 ← readDigits 2 s2
  let s4 ← readChar sep p2.2
  let p3 ← readDigits 4 s4
  if p3.2 = [] ∧ validDate p3.1 p2.1 p1.1 then some ⟨p3.1, p2.1, p1.1⟩ else none

/-- `strptime` with format `%d<sep>%m<sep>%y`. -/
def parseDMY2 (sep : Char) (s : Str) : Option Date := do
  let p1 ← readDigits 2 s
  let s2 ← readChar sep p1.2
  let p2 ← readDigits 2 s2
  let s4 ← readChar sep p2.2
  let p3 ← readDigits 2 s4
  if p3.2 = [] ∧ validDate (y2ToYear p3.1) p2.1 p1.1 then
    some ⟨y2ToYear p3.1, p2.1, p1.1⟩
  else none

/-- The manual format ladder of csv_processor.py `parse_date`:
`%d/%m/%Y`, `%d-%m-%Y`, `%Y-%m-%d`, `%d/%m/%y`, `%d-%m-%y`.  The two
month-name layouts (`%d %B %Y`, `%d %b %Y`) are omitted: no claim
depends on them and their outputs take the same shape. -/
def parseDateFormats (s : Str) : Option Date :=
  (parseDMY4 (Char.ofNat 47) s).orElse (fun _ => (parseDMY4 (Char.ofNat 45) s).orElse
    (fun _ => (parseISODate s).orElse (fun _ => (parseDMY2 (Char.ofNat 47) s).orElse
      (fun _ => parseDMY2 (Char.ofNat 45) s))))

/-- csv_processor.py `parse_date`: NaN or blank yields the empty string,
otherwise parse (pandas first, then the format ladder) and reformat as
`YYYY-MM-DD`; unparsable yields the empty string. -/
def parseDateStr (s : Str) : Str :=
  if s = [] then []
  else
    match pdToDatetime s with
    | some d => formatDate d
    | none =>
      match parseDateFormats s with
      | some d => formatDate d
      | none => []

/-- The value-level wrapper of `parseDateStr`: NaN reads as blank. -/
def parse_date (v : Value) : Str :=
  match v with
  | vNone => []
  | _ => parseDateStr (pyStrip (pyStr v))

/-- The character class `[₹,Rs\.\s]` without IGNORECASE, as
csv_processor.py `parse_amount` strips it. -/
def amountStripCS (c : Char) : Bool :=
  c = '₹' ∨ c = ',' ∨ c = 'R' ∨ c = 's' ∨ c = '.' ∨ pyWS c

/-- csv_processor.py `parse_amount`. -/
def parse_amount (v : Value) : ℚ :=
  match v with
  | vNone => 0
  | _ =>
    let s := pyStrip (pyStr v)
    match pyFloat (List.filter (fun c => ¬ amountStripCS c) s) with
    | some q => q
    | none => 0

/-- The transaction-cell delimiters `[,;|\n]`. -/
def isTransDelim (c : Char) : Bool := c = ',' ∨ c = ';' ∨ c = '|' ∨ c = '\n'

/-- `re.split` on runs of delimiters (runs collapse; a leading, trailing
or empty input contributes empty fragments, as `re.split` does). -/
def splitDelimsAux (fuel : Nat) (s : Str) : List Str :=
  match fuel with
  | 0 => [s]
  | fuel + 1 =>
    match List.dropWhile (fun c => ¬ isTransDelim c) s with
    | [] => [List.takeWhile (fun c => ¬ isTransDelim c) s]
    | _ :: r2 =>
      List.takeWhile (fun c => ¬ isTransDelim c) s
        :: splitDelimsAux fuel (List.dropWhile isTransDelim r2)

def splitDelims (s : Str) : List Str := splitDelimsAux (s.length + 1) s

/-- csv_processor.py `extract_transactions`: split the cell on delimiter
runs, strip each piece, keep those of length at least 8. -/
def extract_transactions (v : Value) : List Str :=
  match v with
  | vNone => []
  | _ =>
    let s := pyStrip (pyStr v)
    List.filter (fun t => 8 ≤ t.length) (List.map pyStrip (splitDelims s))

/-- The `str(row.get(k)).strip() if pd.notna(row.get(k)) else ""` reading
pattern of csv_processor.py: an absent column or NaN cell reads as the
empty string. -/
def csvCell (row : Complaint) (k : Str) : Str :=
  match cgetOpt row k with
  | none => []
  | some vNone => []
  | some v => pyStrip (pyStr v)

/-- The same pattern with a default (used for `Status`). -/
def csvCellD (row : Complaint) (k : Str) (dflt : Str) : Str :=
  match cgetOpt row k with
  | none => dflt
  | some vNone => dflt
  | some v => pyStrip (pyStr v)

/-- The characters `CSV_` opening a synthesized identifier. -/
def csvPrefix : Str := ['C', 'S', 'V', '_']

/-- The final `Complaint_ID` of a tabular record (csv_processor.py lines
170 and 179-181): normalize the cell, and when that gives the sentinel,
synthesize `CSV_<timestamp>_<row-index>`. -/
def csvIdFinal (nowStamp : Str) (idx : Nat) (row : Complaint) : Str :=
  if normalize_complaint_id (vStr (csvCell row kComplaintID)) = NA then
    csvPrefix ++ nowStamp ++ '_' :: natToStr idx
  else normalize_complaint_id (vStr (csvCell row kComplaintID))

/-- The final `Complaint_Date` (lines 151 and 184-185): the parsed date,
or the processing date when blank. -/
def csvDateFinal (today : Date) (row : Complaint) : Str :=
  if parse_date (cget row kComplaintDate (vStr [])) = [] then formatDate today
  else parse_date (cget row kComplaintDate (vStr []))

/-- The final `Incident_Date` (lines 152 and 187-188): the parsed date,
or the (already defaulted) complaint date when blank. -/
def csvIncidentFinal (today : Date) (row : Complaint) : Str :=
  if parse_date (cget row kIncidentDate (vStr [])) = [] then csvDateFinal today row
  else parse_date (cget row kIncidentDate (vStr []))

/-- One record of csv_processor.py `process_csv` (lines 146-190): field
extraction, normalization, identifier synthesis and date defaulting for
the row at positional index `idx`.  `nowStamp` and `today` stand for the
`datetime.now()` reads. -/
def buildCsvComplaint (nowStamp : Str) (today : Date) (idx : Nat) (rawRow : Complaint) :
    Complaint :=
  let row := normalizeHeaders rawRow
  [(kComplaintID, vStr (csvIdFinal nowStamp idx row)),
   (kComplaintDate, vStr (csvDateFinal today row)),
   (kIncidentDate, vStr (csvIncidentFinal today row)),
   (kCategory, vStr (normalize_string (vStr (csvCell row kCategory)))),
   (kSubCategory, vStr (normalize_string (vStr (csvCell row kSubCategory)))),
   (kDistrict, vStr (normalize_string (vStr (csvCell row kDistrict)))),
   (kState, vStr (normalize_string (vStr (csvCell row kState)))),
   (kAmountLost, vFloat (normalize_amount (vFloat (parse_amount (cget row kAmountLost (vInt 0)))))),
   (kStatus, vStr (normalize_string (vStr (csvCellD row kStatus sPending)))),
   (kTransactionCount, vInt (extract_transactions (cget row kTransactionIDs (vStr []))).length),
   (kTransactionIDs, vList (extract_transactions (cget row kTransactionIDs (vStr [])))),
   (kBankPlatformInfo, vStr (normalize_string (vStr (csvCell row kBankPlatformInfo))))]

/-- csv_processor.py `process_csv` from the parsed dataframe on: one
record per row, tagged with its positional index. -/
def process_csv_rows (nowStamp : Str) (today : Date) (rows : List Complaint) :
    List Complaint :=
  List.map (fun p => buildCsvComplaint nowStamp today p.1 p.2) rows.enum


/-- pdf_processor.py `normalize_text`, step 1: carriage returns become
newlines. -/
def mapCR (c : Char) : Char := if c = '\r' then '\n' else c

/-- pdf_processor.py `normalize_text`, step 2: collapse newline runs to a
single newline (`re.sub` of `\n+`).  The flag records whether the
previous character belonged to a newline run, keeping the recursion
structural. -/
def collapseNLAux (prevNL : Bool) : Str → Str
  | [] => []
  | c :: r =>
    if c = '\n' then
      if prevNL then collapseNLAux true r
      else '\n' :: collapseNLAux true r
    else c :: collapseNLAux false r

/-- pdf_processor.py `normalize_text`. -/
def normalize_text (t : Str) : Str := collapseNLAux false (List.map mapCR t)

/-- Case-insensitive prefix test (one step of `re.search` on an escaped
literal with `re.IGNORECASE`). -/
def isPrefixCI : Str → Str → Bool
  | [], _ => true
  | _ :: _, [] => false
  | a :: as, b :: bs => Char.toLower b = Char.toLower a ∧ isPrefixCI as bs

/-- Index of the leftmost case-insensitive occurrence of `m` in `h`
(`re.search` of the escaped marker). -/
def findCI (m h : Str) : Option Nat :=
  if isPrefixCI m h then some 0
  else
    match h with
    | [] => none
    | _ :: r => Option.map (fun i => i + 1) (findCI m r)

/-- pdf_processor.py `extract_section`: the text between the end of the
first occurrence of the start marker and the next occurrence of the end
marker (to the end of text when the end marker is missing; empty when
the start marker is missing). -/
def extract_section (t startMarker endMarker : Str) : Str :=
  match findCI startMarker t with
  | none => []
  | some i =>
    match findCI endMarker (List.drop (i + startMarker.length) t) with
    | none => List.drop (i + startMarker.length) t
    | some j => List.take j (List.drop (i + startMarker.length) t)

def mComplaintType : Str := (r"Complaint Type").data
def mComplainantDetails : Str := (r"Complainant Details").data
def mSuspectDetails : Str := (r"Suspect Details").data

/-- The post-processing of pdf_processor.py `extract_field`: strip the
captured group, cut at the first newline, strip again, and return `None`
when nothing is left. -/
def fieldPost (g : Str) : Option Str :=
  if List.elem '\n' (pyStrip g) then
    if pyStrip (List.takeWhile (fun c => ¬ c = '\n') (pyStrip g)) = [] then none
    else some (pyStrip (List.takeWhile (fun c => ¬ c = '\n') (pyStrip g)))
  else if pyStrip g = [] then none
  else some (pyStrip g)

/-- Leftmost-match search: try the pattern matcher at each position in
turn, as `re.search` does. -/
def reSearch (f : Str → Option Str) (s : Str) : Option Str :=
  match f s with
  | some c => some c
  | none =>
    match s with
    | [] => none
    | _ :: r => reSearch f r

/-- pdf_processor.py `extract_field`: empty text never matches; search,
then post-process the captured group. -/
def extract_field (f : Str → Option Str) (text : Str) : Option Str :=
  if text = [] then none
  else
    match reSearch f text with
    | some g => fieldPost g
    | none => none

/-- Consume a case-insensitive literal, returning the remainder. -/
def stripLitCI : Str → Str → Option Str
  | [], s => some s
  | _ :: _, [] => none
  | a :: as, b :: bs => if Char.toLower b = Char.toLower a then stripLitCI as bs else none

/-- `\s*`: maximal whitespace munch (equivalent to the greedy regex run,
since every following pattern element here starts with a non-whitespace
character or is a `\s`-disjoint class). -/
def dropWS (s : Str) : Str := List.dropWhile pyWS s

/-- `\s+`. -/
def ws1 (s : Str) : Option Str :=
  match s with
  | c :: r => if pyWS c then some (List.dropWhile pyWS r) else none
  | [] => none

/-- `\s*\n\s*`: a whitespace run that contains at least one newline
(regex backtracking places the literal `\n` anywhere inside the run; the
following element never consumes whitespace). -/
def wsWithNL (s : Str) : Option Str :=
  if List.elem '\n' (List.takeWhile pyWS s) then some (List.dropWhile pyWS s) else none

/-- `(\d{10,})` greedy: the maximal digit run, length at least 10. -/
def digits10 (s : Str) : Option Str :=
  if 10 ≤ (List.takeWhile Char.isDigit s).length then some (List.takeWhile Char.isDigit s)
  else none

/-- The class `[A-Za-z ]`. -/
def isAlphaSp (c : Char) : Bool := c.isAlpha ∨ c = ' '

/-- Greatest index `j` with `run[j] = ' '` and a `'\n'` strictly before
it (the giveback point when `\s*\n\s*([A-Za-z ]+)` backtracks into the
whitespace run because no letter follows it). -/
def lastSpaceAfterNLAux : Str → Nat → Bool → Option Nat → Option Nat
  | [], _, _, acc => acc
  | c :: r, i, seenNL, acc =>
    lastSpaceAfterNLAux r (i + 1) (seenNL ∨ c = '\n')
      (if c = ' ' ∧ seenNL then some i else acc)

def lastSpaceAfterNL (run : Str) : Option Nat := lastSpaceAfterNLAux run 0 false none

/-- Greatest index of a space in the run (giveback point for
`\s*\n?\s*([A-Za-z ]+)`, where no newline is required). -/
def lastSpaceAux : Str → Nat → Option Nat → Option Nat
  | [], _, acc => acc
  | c :: r, i, acc => lastSpaceAux r (i + 1) (if c = ' ' then some i else acc)

def lastSpace (run : Str) : Option Nat := lastSpaceAux run 0 none

/-- `\s*\n\s*([A-Za-z ]+)` under Python regex semantics: the whitespace
run must contain a newline; the capture is the letter-and-space run that
follows, or — when no letter follows — the all-space tail the engine
reaches by backtracking (such a capture is whitespace-only and dies in
`extract_field`'s strip). -/
def capAlphaReqNL (s : Str) : Option Str :=
  if List.elem '\n' (List.takeWhile pyWS s) then
    match List.dropWhile pyWS s with
    | z :: rest =>
      if isAlphaSp z then some (List.takeWhile isAlphaSp (z :: rest))
      else
        match lastSpaceAfterNL (List.takeWhile pyWS s) with
        | some j => some (List.takeWhile (fun c => c = ' ') (List.drop j (List.takeWhile pyWS s)))
        | none => none
    | [] =>
      match lastSpaceAfterNL (List.takeWhile pyWS s) with
      | some j => some (List.takeWhile (fun c => c = ' ') (List.drop j (List.takeWhile pyWS s)))
      | none => none
  else none

/-- `\s*\n?\s*([A-Za-z ]+)` (the optional-newline variant, as in the
status pattern). -/
def capAlphaOptNL (s : Str) : Option Str :=
  match List.dropWhile pyWS s with
  | z :: rest =>
    if isAlphaSp z then some (List.takeWhile isAlphaSp (z :: rest))
    else
      match lastSpace (List.takeWhile pyWS s) with
      | some j => some (List.takeWhile (fun c => c = ' ') (List.drop j (List.takeWhile pyWS s)))
      | none => none
  | [] =>
    match lastSpace (List.takeWhile pyWS s) with
    | some j => some (List.takeWhile (fun c => c = ' ') (List.drop j (List.takeWhile pyWS s)))
    | none => none

/-- `Acknowledgement\s*Number\s*:\s*\n?\s*(\d{10,})` at one position
(`\s*\n?\s*` accepts exactly the whitespace runs `\s*` accepts). -/
def matchAck1 (s : Str) : Option Str := do
  let s1 ← stripLitCI (r"Acknowledgement").data s
  let s2 ← stripLitCI (r"Number").data (dropWS s1)
  let s3 ← readChar ':' (dropWS s2)
  digits10 (dropWS s3)

/-- `Acknowledgement\s*Number\s*\n\s*(\d{10,})` at one position. -/
def matchAck2 (s : Str) : Option Str := do
  let s1 ← stripLitCI (r"Acknowledgement").data s
  let s2 ← stripLitCI (r"Number").data (dropWS s1)
  let s3 ← wsWithNL s2
  digits10 s3

/-- `Complaint\s*ID\s*:\s*\n?\s*(\d{10,})` at one position. -/
def matchAck3 (s : Str) : Option Str := do
  let s1 ← stripLitCI (r"Complaint").data s
  let s2 ← stripLitCI (r"ID").data (dropWS s1)
  let s3 ← readChar ':' (dropWS s2)
  digits10 (dropWS s3)

/-- pdf_processor.py `extract_complaint_id`: the three label-anchored
digit patterns in order, empty string when none matches. -/
def extract_complaint_id (text : Str) : Str :=
  match extract_field matchAck1 text with
  | some r1 => r1
  | none =>
    match extract_field matchAck2 text with
    | some r2 => r2
    | none =>
      match extract_field matchAck3 text with
      | some r3 => r3
      | none => []

/-- Python `str.title` (ASCII): uppercase a letter that follows a
non-letter, lowercase the rest. -/
def pyTitleAux (prevAlpha : Bool) : Str → Str
  | [] => []
  | c :: r =>
    (if c.isAlpha then (if prevAlpha then Char.toLower c else Char.toUpper c) else c)
      :: pyTitleAux c.isAlpha r

def pyTitle (s : Str) : Str := pyTitleAux false s

/-- `Category\s+of\s+complaint\s*\n\s*([A-Za-z ]+)` at one position. -/
def matchCategory (s : Str) : Option Str := do
  let s1 ← stripLitCI (r"Category").data s
  let s2 ← ws1 s1
  let s3 ← stripLitCI (r"of").data s2
  let s4 ← ws1 s3
  let s5 ← stripLitCI (r"complaint").data s4
  capAlphaReqNL s5

/-- pdf_processor.py `extract_category`. -/
def extract_category (text : Str) : Str :=
  match extract_field matchCategory text with
  | some res => pyTitle (pyStrip (List.takeWhile (fun c => ¬ c = '\n') res))
  | none => []

/-- `Sub\s+Category\s+of\s+Complaint\s*\n\s*([A-Za-z ]+)` at one
position. -/
def matchSubCategory (s : Str) : Option Str := do
  let s1 ← stripLitCI (r"Sub").data s
  let s2 ← ws1 s1
  let s3 ← stripLitCI (r"Category").data s2
  let s4 ← ws1 s3
  let s5 ← stripLitCI (r"of").data s4
  let s6 ← ws1 s5
  let s7 ← stripLitCI (r"Complaint").data s6
  capAlphaReqNL s7

/-- pdf_processor.py `extract_sub_category`. -/
def extract_sub_category (text : Str) : Str :=
  match extract_field matchSubCategory text with
  | some res => pyTitle (pyStrip (List.takeWhile (fun c => ¬ c = '\n') res))
  | none => []

/-- `(\d{2}/\d{2}/\d{4})` at one position. -/
def matchDateCap (s : Str) : Option Str :=
  match s with
  | d1 :: d2 :: s1 :: m1 :: m2 :: s2 :: y1 :: y2 :: y3 :: y4 :: _ =>
    if d1.isDigit ∧ d2.isDigit ∧ s1 = '/' ∧ m1.isDigit ∧ m2.isDigit ∧ s2 = '/'
        ∧ y1.isDigit ∧ y2.isDigit ∧ y3.isDigit ∧ y4.isDigit then
      some [d1, d2, s1, m1, m2, s2, y1, y2, y3, y4]
    else none
  | _ => none

/-- `Incident\s+Date/Time\s*\n\s*(\d{2}/\d{2}/\d{4})` at one position. -/
def matchIncDate1 (s : Str) : Option Str := do
  let s1 ← stripLitCI (r"Incident").data s
  let s2 ← ws1 s1
  let s3 ← stripLitCI (r"Date/Time").data s2
  let s4 ← wsWithNL s3
  matchDateCap s4

/-- `Incident\s+Date\s*\n\s*(\d{2}/\d{2}/\d{4})` at one position. -/
def matchIncDate2 (s : Str) : Option Str := do
  let s1 ← stripLitCI (r"Incident").data s
  let s2 ← ws1 s1
  let s3 ← stripLitCI (r"Date").data s2
  let s4 ← wsWithNL s3
  matchDateCap s4

/-- `Complaint\s+Date\s*\n\s*(\d{2}/\d{2}/\d{4})` at one position. -/
def matchCompDate (s : Str) : Option Str := do
  let s1 ← stripLitCI (r"Complaint").data s
  let s2 ← ws1 s1
  let s3 ← stripLitCI (r"Date").data s2
  let s4 ← wsWithNL s3
  matchDateCap s4

/-- pdf_processor.py `parse_ncrp_date`: strict `%d/%m/%Y` (NCRP dates are
always `DD/MM/YYYY`), sentinel on failure. -/
def parse_ncrp_date (s : Str) : Str :=
  if pyStrip s = [] then NA
  else
    match parseDMY4 (Char.ofNat 47) (pyStrip s) with
    | some d => formatDate d
    | none => NA

/-- pdf_processor.py `extract_incident_date`. -/
def extract_incident_date (text : Str) : Str :=
  match extract_field matchIncDate1 text with
  | some res => parse_ncrp_date res
  | none =>
    match extract_field matchIncDate2 text with
    | some res => parse_ncrp_date res
    | none => []

/-- pdf_processor.py `extract_complaint_date`. -/
def extract_complaint_date (text : Str) : Str :=
  match extract_field matchCompDate text with
  | some res => parse_ncrp_date res
  | none => []

/-- The capture class `[\d,\.]`. -/
def isAmtCap (c : Char) : Bool := c.isDigit ∨ c = ',' ∨ c = '.'

/-- Consume `w1\s+w2\s+...\s+wn` (case-insensitive literals separated
by `\s+`). -/
def stripWordSeq : List Str → Str → Option Str
  | [], s => some s
  | [w], s => stripLitCI w s
  | w :: w2 :: rest, s =>
    match stripLitCI w s with
    | none => none
    | some s1 =>
      match ws1 s1 with
      | none => none
      | some s2 => stripWordSeq (w2 :: rest) s2

/-- The word sequence of the fraudulent-amount label. -/
def amountWords : List Str :=
  [(r"Total").data, (r"Fraudulent").data, (r"Amount").data, (r"reported").data,
   (r"by").data, (r"complainant").data]

/-- `Total\s+Fraudulent\s+Amount\s+reported\s+by\s+complainant\s*:\s*([\d,\.]+)`
at one position. -/
def matchAmount1 (s : Str) : Option Str :=
  match stripWordSeq amountWords s with
  | none => none
  | some s11 =>
    match readChar ':' (dropWS s11) with
    | none => none
    | some s12 =>
      if List.takeWhile isAmtCap (dropWS s12) = [] then none
      else some (List.takeWhile isAmtCap (dropWS s12))

/-- The skip class `[â‚¹Rs\.\s]` of the fallback amount pattern (the
mojibake bytes of the rupee sign, R/r, S/s, the full stop, whitespace;
IGNORECASE). -/
def mojiStrip (c : Char) : Bool :=
  c = 'â' ∨ c = '‚' ∨ c = '¹' ∨ c = 'R' ∨ c = 'r' ∨ c = 'S' ∨ c = 's' ∨ c = '.' ∨ pyWS c

/-- The fallback amount pattern, whose skip class overlaps the capture
class on the full stop: when no digit or comma follows the skipped run,
backtracking can still capture trailing full stops (a capture that then
fails `float`, yielding `0.0` downstream either way). -/
def matchAmount2 (s : Str) : Option Str :=
  match stripWordSeq amountWords s with
  | none => none
  | some s11 =>
    match readChar ':' (dropWS s11) with
    | none => none
    | some s12 =>
      if List.takeWhile isAmtCap (List.dropWhile mojiStrip s12) ≠ [] then
        some (List.takeWhile isAmtCap (List.dropWhile mojiStrip s12))
      else
        if (List.reverse (List.takeWhile (fun c => c = '.')
            (List.reverse (List.takeWhile mojiStrip s12)))) ≠ [] then
          some (List.reverse (List.takeWhile (fun c => c = '.')
            (List.reverse (List.takeWhile mojiStrip s12))))
        else none

/-- The shared `if result: try float(result.replace(',', '')) ...` step
of pdf_processor.py `extract_amount`. -/
def amountOfCapture (res : Str) : Option ℚ :=
  match pyFloat (List.filter (fun c => ¬ c = ',') res) with
  | some a => some (if a > 0 then a else 0)
  | none => none

/-- The fallback branch of pdf_processor.py `extract_amount`. -/
def extract_amount_fb (text : Str) : ℚ :=
  match extract_field matchAmount2 text with
  | some res =>
    match amountOfCapture res with
    | some a => a
    | none => 0
  | none => 0

/-- pdf_processor.py `extract_amount`: primary pattern, then the
currency-symbol fallback, then `0.0`. -/
def extract_amount (text : Str) : ℚ :=
  match extract_field matchAmount1 text with
  | some res =>
    match amountOfCapture res with
    | some a => a
    | none => extract_amount_fb text
  | none => extract_amount_fb text

/-- The prefix of `s` before the first occurrence of `w`
(`s.split(w)[0]` when `w` occurs in `s`). -/
def takeBefore (w : Str) : Str → Str
  | [] => []
  | c :: r => if isPrefB w (c :: r) then [] else c :: takeBefore w r

/-- The stop-word loop shared by `extract_district`/`extract_state`:
`for word in stop_words: if word in result: result = result.split(word)[0].strip()`. -/
def cutAtStopWords (stops : List Str) (s : Str) : Str :=
  List.foldl (fun acc w => if containsSub w acc then pyStrip (takeBefore w acc) else acc) s stops

/-- `District\s*\n\s*([A-Za-z ]+)` at one position. -/
def matchDistrict (s : Str) : Option Str := do
  let s1 ← stripLitCI (r"District").data s
  capAlphaReqNL s1

def stopWordsDistrict : List Str :=
  [(r"State").data, (r"Amount").data, (r"Complaint").data, (r"Category").data, (r"Sub").data]

/-- pdf_processor.py `extract_district`. -/
def extract_district (text : Str) : Str :=
  match extract_field matchDistrict text with
  | some res =>
    cutAtStopWords stopWordsDistrict (pyStrip (List.takeWhile (fun c => ¬ c = '\n') res))
  | none => []

/-- `State\s*\n\s*([A-Za-z ]+)` at one position. -/
def matchState (s : Str) : Option Str := do
  let s1 ← stripLitCI (r"State").data s
  capAlphaReqNL s1

def stopWordsState : List Str :=
  [(r"District").data, (r"Amount").data, (r"Complaint").data, (r"Category").data, (r"Sub").data]

/-- pdf_processor.py `extract_state`. -/
def extract_state (text : Str) : Str :=
  match extract_field matchState text with
  | some res =>
    cutAtStopWords stopWordsState (pyStrip (List.takeWhile (fun c => ¬ c = '\n') res))
  | none => []

/-- The class `[A-Z0-9]` with IGNORECASE. -/
def isAlnumCI (c : Char) : Bool := c.isAlpha ∨ c.isDigit

/-- `<word1>\s*<word2>\s*:\s*\n?\s*([A-Z0-9]{8,})` at one position,
returning the capture and the remainder after the match (for
`re.findall`). -/
def matchTxn (w1 w2 : Str) (s : Str) : Option (Str × Str) := do
  let s1 ← stripLitCI w1 s
  let s2 ← stripLitCI w2 (dropWS s1)
  let s3 ← readChar ':' (dropWS s2)
  if 8 ≤ (List.takeWhile isAlnumCI (dropWS s3)).length then
    some (List.takeWhile isAlnumCI (dropWS s3),
      List.drop (List.takeWhile isAlnumCI (dropWS s3)).length (dropWS s3))
  else none

/-- `re.findall`: scan left to right, resuming after each match; the
fuel (always ample) keeps the recursion structural. -/
def findAllAux (fuel : Nat) (f : Str → Option (Str × Str)) (s : Str) : List Str :=
  match fuel with
  | 0 => []
  | fuel + 1 =>
    match f s with
    | some p => p.1 :: findAllAux fuel f p.2
    | none =>
      match s with
      | [] => []
      | _ :: r => findAllAux fuel f r

def reFindAll (f : Str → Option (Str × Str)) (s : Str) : List Str :=
  findAllAux (s.length + 1) f s

/-- pdf_processor.py `extract_transaction_ids`: the three UTR-style
patterns, stripped, length-8 filtered, deduplicated.  Python's
`list(set(..))` has unspecified order; only cardinality and membership
are consumed downstream, which first-occurrence `dedup` preserves. -/
def extract_transaction_ids (text : Str) : List Str :=
  List.dedup (List.filter (fun t => 8 ≤ t.length) (List.map pyStrip
    (reFindAll (matchTxn (r"UTR").data (r"Number").data) text
      ++ reFindAll (matchTxn (r"Transaction").data (r"ID").data) text
      ++ reFindAll (matchTxn (r"Transaction").data (r"Reference").data) text)))

/-- pdf_processor.py `extract_bank_platform_info`: the fixed vocabulary,
joined in vocabulary order. -/
def bankVocab : List Str :=
  [(r"SBI").data, (r"HDFC").data, (r"ICICI").data, (r"Axis").data, (r"Kotak").data,
   (r"PNB").data, (r"BOI").data, (r"Canara").data, (r"Paytm").data, (r"PhonePe").data,
   (r"GPay").data, (r"Google Pay").data, (r"UPI").data, (r"NEFT").data, (r"RTGS").data,
   (r"IMPS").data, (r"Bank of India").data, (r"State Bank").data,
   (r"Punjab National Bank").data]

def extract_bank_platform_info (text : Str) : Str :=
  if List.filter (fun b => containsSub (pyUpper b) (pyUpper text)) bankVocab = [] then []
  else List.intercalate (", ").data
    (List.filter (fun b => containsSub (pyUpper b) (pyUpper text)) bankVocab)

/-- `Status\s*:\s*\n?\s*([A-Za-z ]+)` at one position. -/
def matchStatus (s : Str) : Option Str := do
  let s1 ← stripLitCI (r"Status").data s
  let s2 ← readChar ':' (dropWS s1)
  capAlphaOptNL s2

/-- pdf_processor.py `extract_status`. -/
def extract_status (text : Str) : Str :=
  match extract_field matchStatus text with
  | some res => pyTitle (pyStrip (List.takeWhile (fun c => ¬ c = '\n') res))
  | none => sPending

/-- The identifier guardrail of pdf_processor.py `process_pdf` (lines
362-364): `not cid or not cid.isdigit() or len(cid) < 10` must be
false, i.e. the identifier is a digit string of length at least 10. -/
def validPdfId (s : Str) : Bool :=
  s ≠ [] ∧ List.all s Char.isDigit ∧ 10 ≤ s.length

/-- The record construction of pdf_processor.py `process_pdf` after the
guardrail (lines 366-415). -/
def buildPdfComplaint (text header_text location_text complaint_id_raw : Str) : Complaint :=
  [(kComplaintID, vStr (normalize_complaint_id (vStr complaint_id_raw))),
   (kComplaintDate, vStr (if extract_complaint_date text = [] then NA
      else extract_complaint_date text)),
   (kIncidentDate, vStr (if extract_incident_date text = [] then NA
      else extract_incident_date text)),
   (kCategory, vStr (if extract_category header_text = [] then NA
      else normalize_string (vStr (extract_category header_text)))),
   (kSubCategory, vStr (if extract_sub_category header_text = [] then NA
      else normalize_string (vStr (extract_sub_category header_text)))),
   (kDistrict, vStr (if extract_district location_text = [] then NA
      else normalize_string (vStr (extract_district location_text)))),
   (kState, vStr (if extract_state location_text = [] then NA
      else normalize_string (vStr (extract_state location_text)))),
   (kAmountLost, vFloat (normalize_amount (vFloat (extract_amount text)))),
   (kStatus, vStr (if extract_status text = [] then sPending
      else normalize_string (vStr (extract_status text)))),
   (kTransactionCount, vInt (extract_transaction_ids text).length),
   (kTransactionIDs, vList (extract_transaction_ids text)),
   (kBankPlatformInfo, vStr (if extract_bank_platform_info text = [] then NA
      else normalize_string (vStr (extract_bank_platform_info text))))]

/-- pdf_processor.py `process_pdf` from the extracted page text on: the
length floor, text normalization, section isolation, the identifier
guardrail, and the single-record result. -/
def process_pdf_text (t : Str) : List Complaint :=
  if (pyStrip t).length < 50 then []
  else if ¬ validPdfId (extract_complaint_id
      (extract_section (normalize_text t) mComplaintType mComplainantDetails)) then []
  else
    [buildPdfComplaint (normalize_text t)
      (extract_section (normalize_text t) mComplaintType mComplainantDetails)
      (extract_section (normalize_text t) mComplainantDetails mSuspectDetails)
      (extract_complaint_id
        (extract_section (normalize_text t) mComplaintType mComplainantDetails))]

/-- A document text with a valid acknowledgement number but no
"Complaint Type" marker anywhere. -/
def pdfSampleNoId : Str :=
  (r"National Cyber Crime Report. Acknowledgement Number: 9912345678. Details attached below.").data

theorem dropWhile_idem {α : Type} (p : α → Bool) (l : List α) :
    List.dropWhile p (List.dropWhile p l) = List.dropWhile p l := by
  induction l with
  | nil => rfl
  | cons c r ih => by_cases h : p c <;> simp [List.dropWhile_cons, h, ih]

theorem trimL_idem (l : Str) : trimL (trimL l) = trimL l := dropWhile_idem pyWS l

theorem trimR_idem (l : Str) : trimR (trimR l) = trimR l := by
  unfold trimR
  rw [List.reverse_reverse, dropWhile_idem]

theorem head_not_ws_of_trimL_fix (c : Char) (r : Str) (h : trimL (c :: r) = c :: r) :
    pyWS c = false := by
  by_contra hc
  have hc2 : pyWS c = true := by revert hc; cases pyWS c <;> simp
  have : trimL (c :: r) = List.dropWhile pyWS r := by simp [trimL, List.dropWhile_cons, hc2]
  rw [this] at h
  have hlen : (List.dropWhile pyWS r).length ≤ r.length := (List.dropWhile_suffix pyWS).length_le
  have : (c :: r).length ≤ r.length := by rw [← h]; exact hlen
  simp only [List.length_cons] at this
  omega

theorem trimL_of_trimR_of_fix (y : Str) (hy : trimL y = y) : trimL (trimR y) = trimR y := by
  have hpref : trimR y <+: y := by
    have h1 : List.dropWhile pyWS y.reverse <:+ y.reverse := List.dropWhile_suffix pyWS
    have h2 : (trimR y).reverse = List.dropWhile pyWS y.reverse := by
      unfold trimR; rw [List.reverse_reverse]
    rw [← h2] at h1
    exact List.reverse_suffix.mp h1
  match hR : trimR y with
  | [] => rfl
  | c :: t =>
    obtain ⟨s, hs⟩ := hpref
    rw [hR] at hs
    have hcy : ∃ r2, y = c :: r2 := ⟨t ++ s, by rw [← hs]; simp⟩
    obtain ⟨r2, hr2⟩ := hcy
    have hws : pyWS c = false := head_not_ws_of_trimL_fix c r2 (by rw [← hr2]; exact hy)
    simp [trimL, List.dropWhile_cons, hws]

theorem pyStrip_idem (l : Str) : pyStrip (pyStrip l) = pyStrip l := by
  unfold pyStrip
  rw [trimL_of_trimR_of_fix (trimL l) (trimL_idem l), trimR_idem]

theorem trimL_of_noWS (l : Str) (h : ∀ c ∈ l, pyWS c = false) : trimL l = l := by
  cases l with
  | nil => rfl
  | cons c r => simp [trimL, List.dropWhile_cons, h c (List.mem_cons_self c r)]

theorem pyStrip_of_noWS (l : Str) (h : ∀ c ∈ l, pyWS c = false) : pyStrip l = l := by
  unfold pyStrip trimR
  rw [trimL_of_noWS l h]
  rw [show List.dropWhile pyWS l.reverse = l.reverse from
    trimL_of_noWS l.reverse (fun c hc => h c (List.mem_reverse.mp hc))]
  exact List.reverse_reverse l

theorem cget_of_cgetOpt_none (c : Complaint) (k : Str) (d : Value)
    (h : cgetOpt c k = none) : cget c k d = d := by
  induction c with
  | nil => rfl
  | cons p r ih =>
    unfold cgetOpt at h
    unfold cget
    by_cases hk : p.1 = k
    · simp [hk] at h
    · simp only [hk, if_false] at h ⊢
      exact ih h

/-- C2 counterexample: building a row from a record with no `Status` key
yields the default `"Pending"`, not the claimed `"Not Available"`. -/
theorem build_row_missing_status_pending :
    Option.map (fun r => r.status) (build_row_from_complaint [] (r"csv").data)
      = some (vStr sPending) ∧ sPending ≠ NA := by decide

/-- C2 amended: the row builder emits exactly the 16 schema columns in
order (so extra record keys are dropped); missing keys receive the
defaults of the source: sentinel for the six plain text columns, `0.0`
for the amount, `0` for the three integer columns, `"Pending"` for
`Status`, `"NO"` for `Investigation_Ready`, `"UNKNOWN"` for
`Reporting_Delay_Status`, `"MIXED"` for `Transaction_Pattern`, and
`Source_File_Type` is the uppercased source tag rather than a record key. -/
theorem build_row_defaults (c : Complaint) (tag : Str) (row : MasterRow)
    (h : build_row_from_complaint c tag = some row) :
    List.map Prod.fst (rowPairs row) = COLUMNS
    ∧ (cgetOpt c kComplaintID = none → row.complaintId = vStr NA)
    ∧ (cgetOpt c kComplaintDate = none → row.complaintDate = vStr NA)
    ∧ (cgetOpt c kIncidentDate = none → row.incidentDate = vStr NA)
    ∧ (cgetOpt c kCategory = none → row.category = vStr NA)
    ∧ (cgetOpt c kSubCategory = none → row.subCategory = vStr NA)
    ∧ (cgetOpt c kDistrict = none → row.district = vStr NA)
    ∧ (cgetOpt c kState = none → row.state = vStr NA)
    ∧ (cgetOpt c kAmountLost = none → row.amountLost = vFloat 0)
    ∧ (cgetOpt c kStatus = none → row.status = vStr sPending)
    ∧ (cgetOpt c kTransactionCount = none → row.transactionCount = vInt 0)
    ∧ (cgetOpt c kDataQualityScore = none → row.dataQualityScore = vInt 0)
    ∧ (cgetOpt c kInvestigationReady = none → row.investigationReady = vStr sNO)
    ∧ (cgetOpt c kReportingDelayDays = none → row.reportingDelayDays = vInt 0)
    ∧ (cgetOpt c kReportingDelayStatus = none → row.reportingDelayStatus = vStr sUNKNOWN)
    ∧ (cgetOpt c kTransactionPattern = none → row.transactionPattern = vStr sMIXED)
    ∧ row.sourceFileType = vStr (pyUpper tag) := by
  simp only [build_row_from_complaint, bind, Option.bind_eq_some, pure,
    Option.some.injEq] at h
  obtain ⟨tc, htc, dq, hdq, rd, hrd, hrow⟩ := h
  subst hrow
  refine ⟨rfl, ?_, ?_, ?_, ?_, ?_, ?_, ?_, ?_, ?_, ?_, ?_, ?_, ?_, ?_, ?_, rfl⟩
  all_goals intro hk
  all_goals simp only [cget_of_cgetOpt_none _ _ _ hk] at *
  · decide
  · decide
  · decide
  · decide
  · decide
  · decide
  · decide
  · decide
  · decide
  · have : tc = 0 := by
      have := htc
      simp [intIfTruthy, pyTruthy] at this
      omega
    simp [this]
  · have : dq = 0 := by
      have := hdq
      simp [intIfTruthy, pyTruthy] at this
      omega
    simp [this]
  · decide
  · have : rd = 0 := by
      have := hrd
      simp [intIfTruthy, pyTruthy] at this
      omega
    simp [this]
  · decide
  · decide

/-- Witness for the amended C2 theorem at the empty record. -/
theorem build_row_defaults_witness :
    List.map Prod.fst (rowPairs { complaintId := vStr NA
                                  complaintDate := vStr NA
                                  incidentDate := vStr NA
                                  category := vStr NA
                                  subCategory := vStr NA
                                  district := vStr NA
                                  state := vStr NA
                                  amountLost := vFloat 0
                                  status := vStr sPending
                                  transactionCount := vInt 0
                                  dataQualityScore := vInt 0
                                  investigationReady := vStr sNO
                                  reportingDelayDays := vInt 0
                                  reportingDelayStatus := vStr sUNKNOWN
                                  transactionPattern := vStr sMIXED
                                  sourceFileType := vStr (pyUpper (r"csv").data) })
      = COLUMNS := by
  have h := build_row_defaults [] (r"csv").data
      { complaintId := vStr NA
        complaintDate := vStr NA
        incidentDate := vStr NA
        category := vStr NA
        subCategory := vStr NA
        district := vStr NA
        state := vStr NA
        amountLost := vFloat 0
        status := vStr sPending
        transactionCount := vInt 0
        dataQualityScore := vInt 0
        investigationReady := vStr sNO
        reportingDelayDays := vInt 0
        reportingDelayStatus := vStr sUNKNOWN
        transactionPattern := vStr sMIXED
        sourceFileType := vStr (pyUpper (r"csv").data) } (by decide)
  exact h.1

theorem digitChar_mem (k : Nat) (h : k < 10) : Char.ofNat (48 + k) ∈ DIGITS := by
  interval_cases k <;> decide

theorem isDigit_mem (c : Char) (h : c.isDigit = true) : c ∈ DIGITS := by
  simp only [Char.isDigit, ge_iff_le, Bool.and_eq_true, decide_eq_true_eq] at h
  obtain ⟨h1, h2⟩ := h
  have h1n : 48 ≤ c.toNat := h1
  have h2n : c.toNat ≤ 57 := h2
  have hc : Char.ofNat c.toNat = c := Char.ofNat_toNat c
  interval_cases hn : c.toNat <;> (rw [← hc]; decide)

theorem digit_props (c : Char) (h : c ∈ DIGITS) :
    c.toLower = c ∧ c.isDigit = true ∧ pyWS c = false ∧ amountStripCI c = false
    ∧ c ≠ '+' ∧ c ≠ '-' ∧ c ≠ 'e' ∧ c ≠ 'E' ∧ c ≠ 'n' ∧ c ≠ '\n' ∧ c ≠ '\r' := by
  simp only [DIGITS, List.mem_cons, List.not_mem_nil, or_false] at h
  rcases h with rfl | rfl | rfl | rfl | rfl | rfl | rfl | rfl | rfl | rfl <;> decide

theorem isPrefB_iff (a b : Str) : isPrefB a b = true ↔ a <+: b := by
  induction a generalizing b with
  | nil => simp [isPrefB]
  | cons x xs ih =>
    cases b with
    | nil => simp [isPrefB]
    | cons y ys => simp [isPrefB, ih, List.cons_prefix_cons]

theorem containsSub_iff (n h : Str) : containsSub n h = true ↔ n <:+: h := by
  induction h with
  | nil =>
    rw [containsSub]
    cases hp : isPrefB n [] with
    | true => simp [List.IsPrefix.isInfix ((isPrefB_iff n []).mp hp)]
    | false =>
      simp only [Bool.false_eq_true, if_false, false_iff]
      intro hin
      have hnil : n = [] := List.sublist_nil.mp hin.sublist
      subst hnil
      simp [isPrefB] at hp
  | cons c r ih =>
    rw [containsSub]
    cases hp : isPrefB n (c :: r) with
    | true => simp [List.IsPrefix.isInfix ((isPrefB_iff n (c :: r)).mp hp)]
    | false =>
      simp only [Bool.false_eq_true, if_false]
      rw [ih, List.infix_cons_iff]
      constructor
      · exact Or.inr
      · rintro (hpre | hinf)
        · exact absurd ((isPrefB_iff n (c :: r)).mpr hpre) (by simp [hp])
        · exact hinf

theorem natToStrAux_mem_digits (fuel : Nat) : ∀ n : Nat, ∀ c ∈ natToStrAux fuel n, c ∈ DIGITS := by
  induction fuel with
  | zero => intro n c hc; simp [natToStrAux] at hc
  | succ f ih =>
    intro n c hc
    rw [natToStrAux] at hc
    split at hc
    · next h =>
      simp only [List.mem_singleton] at hc
      subst hc
      exact digitChar_mem n h
    · next h =>
      rw [List.mem_append] at hc
      rcases hc with hc | hc
      · exact ih (n / 10) c hc
      · simp only [List.mem_singleton] at hc
        subst hc
        exact digitChar_mem (n % 10) (Nat.mod_lt _ (by omega))

theorem natToStr_mem_digits (n : Nat) : ∀ c ∈ natToStr n, c ∈ DIGITS :=
  natToStrAux_mem_digits (n + 1) n

theorem natToStr_ne_nil (n : Nat) : natToStr n ≠ [] := by
  rw [natToStr, natToStrAux]
  split <;> simp

theorem digits_not_in_tokens (d : Str) (hd : ∀ c ∈ d, c ∈ DIGITS) : d ∉ nullTokens := by
  intro hmem
  have hN : ('n' : Char) ∈ d := by
    rcases (by simpa [nullTokens] using hmem : _ ∨ _) with h | h | h | h | h <;> (rw [h]; decide)
  exact absurd (hd _ hN) (by decide)

theorem pyLower_of_digits (d : Str) (hd : ∀ c ∈ d, c ∈ DIGITS) : pyLower d = d := by
  unfold pyLower
  rw [List.map_congr_left (fun c hc => (digit_props c (hd c hc)).1)]
  exact List.map_id d

theorem containsSub_e_false (d : Str) (hd : ∀ c ∈ d, c ∈ DIGITS) :
    containsSub ePlus d = false ∧ containsSub eMinus d = false := by
  constructor <;>
  · cases hcs : containsSub _ d with
    | false => rfl
    | true =>
      have hin := (containsSub_iff _ d).mp hcs
      have : ('e' : Char) ∈ d := hin.subset (by decide)
      exact absurd (hd _ this) (by decide)

theorem normalize_string_idem_aux (t : Str) (ht : pyStrip t = t) :
    normalize_string (vStr (nsBody t)) = nsBody t := by
  by_cases h : t = [] ∨ pyLower t ∈ nullTokens
  · rw [show nsBody t = NA from by unfold nsBody; rw [if_pos h]]
    decide
  · rw [show nsBody t = t from by unfold nsBody; rw [if_neg h]]
    show nsBody (pyStrip t) = t
    rw [ht]
    unfold nsBody
    rw [if_neg h]

theorem normalize_string_idem (v : Value) :
    normalize_string (vStr (normalize_string v)) = normalize_string v := by
  cases v with
  | vNone => decide
  | vStr s => exact normalize_string_idem_aux _ (pyStrip_idem _)
  | vInt n => exact normalize_string_idem_aux _ (pyStrip_idem _)
  | vFloat q => exact normalize_string_idem_aux _ (pyStrip_idem _)
  | vList l => exact normalize_string_idem_aux _ (pyStrip_idem _)

theorem ncid_fix_digits (q : ℚ) (h3 : q > (10 : ℚ) ^ (10 : ℕ)) :
    normalize_complaint_id (vStr (intToStr (pyTrunc q))) = intToStr (pyTrunc q) := by
  have hq0 : (0 : ℚ) ≤ q := le_of_lt (lt_trans (by norm_num) h3)
  have hfl : (0 : Int) ≤ ⌊q⌋ := Int.floor_nonneg.mpr hq0
  have htr : pyTrunc q = ⌊q⌋ := by rw [pyTrunc, if_pos hq0]
  have hd : intToStr (pyTrunc q) = natToStr (pyTrunc q).natAbs := by
    unfold intToStr
    rw [if_neg (by omega)]
  have hdig : ∀ c ∈ intToStr (pyTrunc q), c ∈ DIGITS := by
    rw [hd]; exact natToStr_mem_digits _
  have hne : intToStr (pyTrunc q) ≠ [] := by rw [hd]; exact natToStr_ne_nil _
  have hstrip : pyStrip (intToStr (pyTrunc q)) = intToStr (pyTrunc q) :=
    pyStrip_of_noWS _ (fun c hc => (digit_props c (hdig c hc)).2.2.1)
  have hlow : pyLower (intToStr (pyTrunc q)) = intToStr (pyTrunc q) :=
    pyLower_of_digits _ hdig
  have hcs := containsSub_e_false _ hdig
  show ncidBody (pyStrip (intToStr (pyTrunc q))) = intToStr (pyTrunc q)
  rw [hstrip]
  unfold ncidBody
  rw [if_neg, if_neg]
  · rw [hlow]
    simp [hcs.1, hcs.2]
  · rw [hlow]
    push_neg
    exact ⟨hne, digits_not_in_tokens _ hdig⟩

theorem ncid_idem_aux (t : Str) (ht : pyStrip t = t) :
    normalize_complaint_id (vStr (ncidBody t)) = ncidBody t := by
  have hvstr : ∀ u : Str, normalize_complaint_id (vStr u) = ncidBody (pyStrip u) :=
    fun u => rfl
  by_cases h1 : t = [] ∨ pyLower t ∈ nullTokens
  · rw [show ncidBody t = NA from by unfold ncidBody; rw [if_pos h1]]
    decide
  · by_cases h2 : containsSub ePlus (pyLower t) = true ∨ containsSub eMinus (pyLower t) = true
    · cases hq : pyFloat t with
      | none =>
        have hbt : ncidBody t = t := by
          unfold ncidBody; rw [if_neg h1, if_pos h2, hq]
        rw [hbt, hvstr, ht, hbt]
      | some q =>
        by_cases h3 : q > (10 : ℚ) ^ (10 : ℕ)
        · have hbt : ncidBody t = intToStr (pyTrunc q) := by
            unfold ncidBody
            rw [if_neg h1, if_pos h2, hq]
            exact if_pos h3
          rw [hbt]
          exact ncid_fix_digits q h3
        · have hbt : ncidBody t = t := by
            unfold ncidBody
            rw [if_neg h1, if_pos h2, hq]
            exact if_neg h3
          rw [hbt, hvstr, ht, hbt]
    · have hbt : ncidBody t = t := by
        unfold ncidBody; rw [if_neg h1, if_neg h2]
      rw [hbt, hvstr, ht, hbt]

theorem normalize_complaint_id_idem (v : Value) :
    normalize_complaint_id (vStr (normalize_complaint_id v)) = normalize_complaint_id v := by
  cases v with
  | vNone => decide
  | vStr s => exact ncid_idem_aux _ (pyStrip_idem _)
  | vInt n => exact ncid_idem_aux _ (pyStrip_idem _)
  | vFloat q => exact ncid_idem_aux _ (pyStrip_idem _)
  | vList l => exact ncid_idem_aux _ (pyStrip_idem _)

/-- C8: each of the three normalizers is idempotent — re-applying any of
them to its own output (the output re-wrapped as the value it is in
Python: a string for the string and identifier normalizers, a float for
the amount normalizer) is a no-op. -/
theorem normalizer_idempotent :
    (∀ v : Value, normalize_string (vStr (normalize_string v)) = normalize_string v)
    ∧ (∀ v : Value, normalize_amount (vFloat (normalize_amount v)) = normalize_amount v)
    ∧ (∀ v : Value, normalize_complaint_id (vStr (normalize_complaint_id v))
        = normalize_complaint_id v) :=
  ⟨normalize_string_idem, fun _ => rfl, normalize_complaint_id_idem⟩

/-- C1 counterexample: enriching the Scenario A row never yields a data
quality score of 100 — the row carries no `District`/`State`, so that
component is not earned.  On the row as literally given (`Amount_Lost`
is the string `"60,000"`, which the score treats as non-numeric) the
enrichment engine computes a score of 60, not 100. -/
theorem scenarioA_score_not_100 :
    cget (apply_features scenarioRowRaw) kDataQualityScore vNone = vInt 60
    ∧ cget (apply_features scenarioRowNormalized) kDataQualityScore vNone = vInt 80
    ∧ (60 : Int) ≠ 100 ∧ (80 : Int) ≠ 100 := by
  refine ⟨by decide, by decide, by decide, by decide⟩

/-- C1 amended: with `Amount_Lost` normalized to the number 60000.0 (as
the tabular pipeline stores it before enrichment), Scenario A yields
`Data_Quality_Score = 80` (the District-and-State component is missing),
`Investigation_Ready = YES`, `Reporting_Delay_Days = 9`,
`Reporting_Delay_Status = DELAYED`, `Transaction_Pattern = SINGLE_LARGE`;
on the literal row the string amount also costs the amount component and
the amount-based features: score 60, `Investigation_Ready = NO`,
`Transaction_Pattern = MIXED`. -/
theorem scenarioA_enrichment :
    (cget (apply_features scenarioRowNormalized) kDataQualityScore vNone = vInt 80
      ∧ cget (apply_features scenarioRowNormalized) kInvestigationReady vNone = vStr sYES
      ∧ cget (apply_features scenarioRowNormalized) kReportingDelayDays vNone = vInt 9
      ∧ cget (apply_features scenarioRowNormalized) kReportingDelayStatus vNone = vStr sDELAYED
      ∧ cget (apply_features scenarioRowNormalized) kTransactionPattern vNone = vStr sSINGLELARGE)
    ∧ (cget (apply_features scenarioRowRaw) kDataQualityScore vNone = vInt 60
      ∧ cget (apply_features scenarioRowRaw) kInvestigationReady vNone = vStr sNO
      ∧ cget (apply_features scenarioRowRaw) kReportingDelayDays vNone = vInt 9
      ∧ cget (apply_features scenarioRowRaw) kReportingDelayStatus vNone = vStr sDELAYED
      ∧ cget (apply_features scenarioRowRaw) kTransactionPattern vNone = vStr sMIXED) := by
  refine ⟨⟨?_, ?_, ?_, ?_, ?_⟩, ⟨?_, ?_, ?_, ?_, ?_⟩⟩ <;> decide

theorem pyFloat_digits (d : Str) (hne : d ≠ []) (hd : ∀ c ∈ d, c.isDigit = true) :
    pyFloat d = some ((digitsToNat d : ℚ)) := by
  have hsign : signSplit d = (1, d) := by
    cases d with
    | nil => exact absurd rfl hne
    | cons c r =>
      have hp := digit_props c (isDigit_mem c (hd c (List.mem_cons_self c r)))
      simp only [signSplit, if_neg hp.2.2.2.2.1, if_neg hp.2.2.2.2.2.1]
  have htake : List.takeWhile Char.isDigit d = d := List.takeWhile_eq_self_iff.mpr hd
  have hdrop : List.dropWhile Char.isDigit d = [] := List.dropWhile_eq_nil_iff.mpr hd
  unfold pyFloat
  rw [hsign]
  simp [htake, hdrop, hne, Int.cast_natCast]

/-- C4 counterexample: `normalize_amount` is not value-preserving and not
non-negative — the stripped character class contains the full stop, so
`"1.5"` parses as `15.0` (not `1.5`), and a negative input passes through
unchanged. -/
theorem normalize_amount_cex :
    normalize_amount (vStr (r"1.5").data) = 15
    ∧ (15 : ℚ) ≠ 3 / 2
    ∧ normalize_amount (vInt (-5)) = -5
    ∧ ¬ (0 ≤ normalize_amount (vInt (-5))) := by
  refine ⟨by decide, by norm_num, by decide, by decide⟩

/-- C4 amended: `normalize_amount` strips the characters of the class
`[₹,Rs\.\s]` (case-insensitively: the rupee sign, comma, R/r, S/s, the
decimal point, whitespace) and parses the remainder, with `0.0` for
null-like or unparsable input.  For amounts written with digits and comma
separators the result equals the value of the digits and is non-negative;
stripping the decimal point rescales fractional amounts, and negative
inputs yield negative outputs. -/
theorem normalize_amount_digit_comma (s : Str)
    (h1 : ∀ c ∈ s, c.isDigit = true ∨ c = ',')
    (h2 : ∃ c ∈ s, c.isDigit = true) :
    normalize_amount (vStr s) = (digitsToNat (List.filter Char.isDigit s) : ℚ)
    ∧ 0 ≤ normalize_amount (vStr s) := by
  obtain ⟨c0, hc0, hc0d⟩ := h2
  have hne : s ≠ [] := fun h => by rw [h] at hc0; exact absurd hc0 (List.not_mem_nil c0)
  have hnws : ∀ c ∈ s, pyWS c = false := by
    intro c hc
    rcases h1 c hc with hdc | hcomma
    · exact (digit_props c (isDigit_mem c hdc)).2.2.1
    · rw [hcomma]; decide
  have hstrip : pyStrip s = s := pyStrip_of_noWS s hnws
  have htok : pyLower s ∉ nullTokens := by
    intro hmem
    have hN : ('n' : Char) ∈ pyLower s := by
      rcases (by simpa [nullTokens] using hmem : _ ∨ _) with h | h | h | h | h <;>
        (rw [h]; decide)
    obtain ⟨c, hc, hlc⟩ := List.mem_map.mp hN
    rcases h1 c hc with hdc | hcomma
    · rw [(digit_props c (isDigit_mem c hdc)).1] at hlc
      rw [hlc] at hdc
      exact absurd hdc (by decide)
    · rw [hcomma] at hlc
      exact absurd hlc (by decide)
  have hfil : List.filter (fun c => ¬ amountStripCI c) s = List.filter Char.isDigit s := by
    apply List.filter_congr
    intro c hc
    rcases h1 c hc with hdc | hcomma
    · have hp := digit_props c (isDigit_mem c hdc)
      simp [hp.2.2.2.1, hdc]
    · rw [hcomma]; decide
  have hdd : ∀ c ∈ List.filter Char.isDigit s, c.isDigit = true :=
    fun c hc => (List.mem_filter.mp hc).2
  have hdne : List.filter Char.isDigit s ≠ [] := by
    intro h
    have : c0 ∈ List.filter Char.isDigit s := List.mem_filter.mpr ⟨hc0, hc0d⟩
    rw [h] at this
    exact absurd this (List.not_mem_nil c0)
  have hkey : normalize_amount (vStr s) = (digitsToNat (List.filter Char.isDigit s) : ℚ) := by
    show naBody (pyStrip s) = _
    rw [hstrip]
    unfold naBody
    rw [if_neg (by push_neg; exact ⟨hne, htok⟩), hfil, pyFloat_digits _ hdne hdd]
  exact ⟨hkey, by rw [hkey]; exact Nat.cast_nonneg _⟩

/-- Witness for the amended C4 theorem at the Scenario A amount string. -/
theorem normalize_amount_digit_comma_witness :
    normalize_amount (vStr (r"60,000").data)
      = (digitsToNat (List.filter Char.isDigit (r"60,000").data) : ℚ)
    ∧ 0 ≤ normalize_amount (vStr (r"60,000").data) :=
  normalize_amount_digit_comma (r"60,000").data (by decide) (by decide)

theorem pyTrunc_intCast (n : Int) : pyTrunc ((n : ℚ)) = n := by
  unfold pyTrunc
  by_cases h : (0 : ℚ) ≤ (n : ℚ)
  · rw [if_pos h, Int.floor_intCast]
  · rw [if_neg h, ← Int.cast_neg, Int.floor_intCast]
    omega

theorem coerceRow_idem (r : MasterRow) : coerceRow (coerceRow r) = coerceRow r := by
  cases r
  simp [coerceRow, pyStr, pdToNumeric, pyTrunc_intCast]

theorem rowKey_coerce (r : MasterRow) : rowKey (coerceRow r) = rowKey r := rfl

theorem filterNewRows_spec (rows : List MasterRow) : ∀ ids : List Str,
    (∀ r ∈ (filterNewRows ids rows).1, rowKey r ∉ ids)
    ∧ (List.map rowKey (filterNewRows ids rows).1).Nodup := by
  induction rows with
  | nil => intro ids; simp [filterNewRows]
  | cons row rest ih =>
    intro ids
    unfold filterNewRows
    by_cases hc : rowKey row ≠ [] ∧ rowKey row ≠ NA ∧ rowKey row ∉ ids
    · rw [if_pos hc]
      obtain ⟨ihall, ihnodup⟩ := ih (rowKey row :: ids)
      constructor
      · intro r hr
        rcases List.mem_cons.mp hr with rfl | hr2
        · exact hc.2.2
        · exact fun hmem => (ihall r hr2) (List.mem_cons_of_mem _ hmem)
      · simp only [List.map_cons, List.nodup_cons]
        refine ⟨?_, ihnodup⟩
        intro hmem
        obtain ⟨r, hr, hkey⟩ := List.mem_map.mp hmem
        exact (ihall r hr) (hkey ▸ List.mem_cons_self _ _)
    · rw [if_neg hc]
      exact ih ids

theorem append_decomp (existing : List MasterRow) (cs : List Complaint) (tag : Str)
    (out : Nat × Nat × List MasterRow)
    (h : append_to_master_excel existing cs tag = some out) :
    ∃ rows, buildRows (apply_intelligence_features cs) tag = some rows
      ∧ out = ((filterNewRows (existingIds existing) rows).1.length,
          existing.length + (filterNewRows (existingIds existing) rows).1.length,
          List.map coerceRow (List.map coerceRow
            (existing ++ (filterNewRows (existingIds existing) rows).1))) := by
  simp only [append_to_master_excel, safe_write_excel, bind, Option.bind_eq_some,
    pure, Option.some.injEq] at h
  obtain ⟨rows, hrows, hout⟩ := h
  refine ⟨rows, hrows, ?_⟩
  rw [← hout]
  simp [List.length_append]

theorem append_out_fixed (existing : List MasterRow) (cs : List Complaint) (tag : Str)
    (out : Nat × Nat × List MasterRow)
    (h : append_to_master_excel existing cs tag = some out) :
    ∀ r ∈ out.2.2, coerceRow r = r := by
  obtain ⟨rows, _, hout⟩ := append_decomp existing cs tag out h
  rw [hout]
  intro r hr
  simp only [List.map_map, List.mem_map, Function.comp_apply] at hr
  obtain ⟨a, _, ha⟩ := hr
  rw [← ha, coerceRow_idem, coerceRow_idem]

theorem map_coerce_of_fixed (l : List MasterRow) (hfix : ∀ r ∈ l, coerceRow r = r) :
    List.map coerceRow l = l := by
  rw [List.map_congr_left hfix]
  simp

theorem runMergesFrom_fixed (bs : List (List Complaint × Str)) :
    ∀ init st : List MasterRow, (∀ r ∈ init, coerceRow r = r) →
      runMergesFrom init bs = some st → ∀ r ∈ st, coerceRow r = r := by
  induction bs with
  | nil =>
    intro init st hinit hfold
    simp only [runMergesFrom, Option.some.injEq] at hfold
    rw [← hfold]
    exact hinit
  | cons b rest ih =>
    intro init st hinit hfold
    simp only [runMergesFrom, bind, Option.bind_eq_some] at hfold
    obtain ⟨out, hout, hrest⟩ := hfold
    exact ih out.2.2 st (append_out_fixed _ _ _ _ hout) hrest

theorem runMerges_fixed (batches : List (List Complaint × Str)) (store : List MasterRow)
    (h : runMerges batches = some store) : ∀ r ∈ store, coerceRow r = r :=
  runMergesFrom_fixed batches [] store (by simp) h

/-- C7: against any store reachable by a sequence of merges from the
empty store, merging an empty batch returns `(0, previous count)` and
leaves the persisted store exactly as it was, and every merge (of any
batch) keeps the previously persisted rows unchanged, in order, as a
prefix of the new store, appending accepted rows after them. -/
theorem append_frame (batches : List (List Complaint × Str)) (store : List MasterRow)
    (tag : Str) (h : runMerges batches = some store) :
    append_to_master_excel store [] tag = some (0, store.length, store)
    ∧ (∀ cs out, append_to_master_excel store cs tag = some out →
        ∃ newRows, out.2.2 = store ++ newRows) := by
  have hfix : ∀ r ∈ store, coerceRow r = r := runMerges_fixed batches store h
  constructor
  · simp only [append_to_master_excel, safe_write_excel, bind, Option.bind_eq_some, pure]
    refine ⟨[], rfl, ?_⟩
    rw [show (filterNewRows (existingIds store) []).1 = [] from rfl]
    rw [List.append_nil, map_coerce_of_fixed store hfix, map_coerce_of_fixed store hfix]
    simp
  · intro cs out hout
    obtain ⟨rows, _, hdec⟩ := append_decomp store cs tag out hout
    refine ⟨List.map coerceRow (List.map coerceRow
      (filterNewRows (existingIds store) rows).1), ?_⟩
    rw [hdec]
    simp only [List.map_append]
    rw [map_coerce_of_fixed store hfix, map_coerce_of_fixed store hfix]

/-- Witness for C7 on a concrete one-batch store. -/
theorem append_frame_witness :
    append_to_master_excel [sampleRow] [] (r"csv").data = some (0, 1, [sampleRow]) :=
  (append_frame [([sampleComplaint], (r"csv").data)] [sampleRow] (r"csv").data (by decide)).1

/-- C5: the merge engine walks the batch in order and accepts a row only
when its trimmed identifier is non-empty, non-sentinel and unseen, adding
accepted identifiers to the set at once; a batch of two complaints whose
built rows carry the same fresh valid identifier therefore yields
`newCount = 1`, raises the total by exactly one, and appends the first
occurrence. -/
theorem merge_same_id_twice (existing : List MasterRow) (c1 c2 : Complaint) (tag : Str)
    (out : Nat × Nat × List MasterRow) (r1 r2 : MasterRow)
    (h : append_to_master_excel existing [c1, c2] tag = some out)
    (hb1 : build_row_from_complaint (apply_features c1) tag = some r1)
    (hb2 : build_row_from_complaint (apply_features c2) tag = some r2)
    (heq : rowKey r1 = rowKey r2)
    (hne : rowKey r1 ≠ []) (hns : rowKey r1 ≠ NA)
    (hnew : rowKey r1 ∉ existingIds existing) :
    out.1 = 1 ∧ out.2.1 = existing.length + 1
    ∧ out.2.2 = List.map coerceRow (List.map coerceRow (existing ++ [r1])) := by
  obtain ⟨rows, hrows, hdec⟩ := append_decomp existing [c1, c2] tag out h
  have hrows2 : rows = [r1, r2] := by
    simp only [apply_intelligence_features, List.map_cons, List.map_nil, buildRows,
      hb1, hb2, bind, Option.bind_eq_some, pure, Option.some.injEq] at hrows
    obtain ⟨a, rfl, a1, ⟨a2, rfl, a3, rfl, rfl⟩, rfl⟩ := hrows
    rfl
  subst hrows2
  have hfil : filterNewRows (existingIds existing) [r1, r2]
      = ([r1], rowKey r1 :: existingIds existing) := by
    unfold filterNewRows
    rw [if_pos ⟨hne, hns, hnew⟩]
    unfold filterNewRows
    rw [if_neg (by
      intro hcond
      exact hcond.2.2 (by rw [← heq]; exact List.mem_cons_self _ _))]
    rfl
  rw [hdec, hfil]
  exact ⟨rfl, rfl, rfl⟩

/-- Witness for C5 at a concrete duplicate batch. -/
theorem merge_same_id_twice_witness :
    (((1, 1, [sampleRow]) : Nat × Nat × List MasterRow).1 = 1)
    ∧ (((1, 1, [sampleRow]) : Nat × Nat × List MasterRow).2.1
        = ([] : List MasterRow).length + 1)
    ∧ (((1, 1, [sampleRow]) : Nat × Nat × List MasterRow).2.2
        = List.map coerceRow (List.map coerceRow (([] : List MasterRow) ++ [sampleRow]))) :=
  merge_same_id_twice [] sampleComplaint sampleComplaint (r"csv").data
    (1, 1, [sampleRow]) sampleRow sampleRow (by decide) (by decide) (by decide) rfl
    (by decide) (by decide) (by decide)

theorem append_nodup (existing : List MasterRow) (cs : List Complaint) (tag : Str)
    (out : Nat × Nat × List MasterRow)
    (h : append_to_master_excel existing cs tag = some out)
    (hex : (List.map rowKey existing).Nodup) :
    (List.map rowKey out.2.2).Nodup := by
  obtain ⟨rows, _, hdec⟩ := append_decomp existing cs tag out h
  rw [hdec]
  have hckey : List.map rowKey (List.map coerceRow (List.map coerceRow
      (existing ++ (filterNewRows (existingIds existing) rows).1)))
      = List.map rowKey (existing ++ (filterNewRows (existingIds existing) rows).1) := by
    simp only [List.map_map]
    exact List.map_congr_left (fun r _ => by
      simp only [Function.comp_apply, rowKey_coerce])
  rw [hckey, List.map_append, List.nodup_append]
  obtain ⟨hnotin, hnodup⟩ := filterNewRows_spec rows (existingIds existing)
  refine ⟨hex, hnodup, ?_⟩
  intro a ha hb
  obtain ⟨r, hr, hkey⟩ := List.mem_map.mp hb
  exact (hnotin r hr) (by rw [hkey]; exact ha)

theorem runMergesFrom_nodup (bs : List (List Complaint × Str)) :
    ∀ init st : List MasterRow, (List.map rowKey init).Nodup →
      runMergesFrom init bs = some st → (List.map rowKey st).Nodup := by
  induction bs with
  | nil =>
    intro init st hinit hfold
    simp only [runMergesFrom, Option.some.injEq] at hfold
    rw [← hfold]
    exact hinit
  | cons b rest ih =>
    intro init st hinit hfold
    simp only [runMergesFrom, bind, Option.bind_eq_some] at hfold
    obtain ⟨out, hout, hrest⟩ := hfold
    exact ih out.2.2 st (append_nodup _ _ _ _ hout hinit) hrest

/-- C6: after any sequence of merges from the empty store, no two rows of
the persisted store share the same non-empty, non-sentinel
`Complaint_ID`. -/
theorem store_ids_unique (batches : List (List Complaint × Str)) (store : List MasterRow)
    (h : runMerges batches = some store) :
    store.Pairwise (fun a b => ¬ (pyStr a.complaintId = pyStr b.complaintId
      ∧ pyStr a.complaintId ≠ [] ∧ pyStr a.complaintId ≠ NA)) := by
  have hnd : (List.map rowKey store).Nodup :=
    runMergesFrom_nodup batches [] store (by simp) h
  have hnd2 : (List.map rowKey store).Pairwise (fun a b => a ≠ b) := hnd
  have hpw : store.Pairwise (fun a b => rowKey a ≠ rowKey b) := List.pairwise_map.mp hnd2
  exact hpw.imp (fun hab hand => hab (by unfold rowKey; rw [hand.1]))

/-- Witness for C6 on a concrete one-batch run. -/
theorem store_ids_unique_witness :
    List.Pairwise (fun a b => ¬ (pyStr a.complaintId = pyStr b.complaintId
      ∧ pyStr a.complaintId ≠ [] ∧ pyStr a.complaintId ≠ NA)) [sampleRow] :=
  store_ids_unique [([sampleComplaint], (r"csv").data)] [sampleRow] (by decide)

theorem intToStr_ne_nil (n : Int) : intToStr n ≠ [] := by
  unfold intToStr
  split
  · simp
  · exact natToStr_ne_nil _

theorem ncidBody_ne_nil (t : Str) : ncidBody t ≠ [] := by
  unfold ncidBody
  split
  · decide
  · next h1 =>
    split
    · split
      · split
        · exact intToStr_ne_nil _
        · exact fun h => h1 (Or.inl h)
      · exact fun h => h1 (Or.inl h)
    · exact fun h => h1 (Or.inl h)

theorem ncid_ne_nil (v : Value) : normalize_complaint_id v ≠ [] := by
  cases v with
  | vNone => decide
  | vStr s => exact ncidBody_ne_nil _
  | vInt n => exact ncidBody_ne_nil _
  | vFloat q => exact ncidBody_ne_nil _
  | vList l => exact ncidBody_ne_nil _

theorem csvIdFinal_ok (nowStamp : Str) (idx : Nat) (row : Complaint) :
    csvIdFinal nowStamp idx row ≠ NA ∧ csvIdFinal nowStamp idx row ≠ [] := by
  unfold csvIdFinal
  split
  · constructor
    · intro h
      have h2 : 'C' :: 'S' :: 'V' :: '_' :: (nowStamp ++ '_' :: natToStr idx)
          = 'N' :: (r"ot Available").data := h
      simp only [List.cons.injEq] at h2
      exact absurd h2.1 (by decide)
    · intro h
      have h2 : 'C' :: 'S' :: 'V' :: '_' :: (nowStamp ++ '_' :: natToStr idx) = [] := h
      exact absurd h2 (by simp)
  · next hne => exact ⟨hne, ncid_ne_nil _⟩

theorem dash_mem_formatDate (d : Date) : ('-' : Char) ∈ formatDate d := by
  unfold formatDate
  simp [List.mem_append]

theorem formatDate_ne_nil (d : Date) : formatDate d ≠ [] := by
  intro h
  have hm := dash_mem_formatDate d
  rw [h] at hm
  exact absurd hm (List.not_mem_nil _)

theorem formatDate_ne_NA (d : Date) : formatDate d ≠ NA := by
  intro h
  have hm := dash_mem_formatDate d
  rw [h] at hm
  exact absurd hm (by decide)

theorem parseDateStr_shape (s : Str) :
    parseDateStr s = [] ∨ ∃ d, parseDateStr s = formatDate d := by
  unfold parseDateStr
  split
  · exact Or.inl rfl
  · split
    · next d _ => exact Or.inr ⟨d, rfl⟩
    · split
      · next d _ => exact Or.inr ⟨d, rfl⟩
      · exact Or.inl rfl

theorem parse_date_shape (v : Value) :
    parse_date v = [] ∨ ∃ d, parse_date v = formatDate d := by
  cases v with
  | vNone => exact Or.inl rfl
  | vStr s => exact parseDateStr_shape _
  | vInt n => exact parseDateStr_shape _
  | vFloat q => exact parseDateStr_shape _
  | vList l => exact parseDateStr_shape _

theorem csvDateFinal_ok (today : Date) (row : Complaint) :
    csvDateFinal today row ≠ [] ∧ csvDateFinal today row ≠ NA := by
  unfold csvDateFinal
  split
  · exact ⟨formatDate_ne_nil today, formatDate_ne_NA today⟩
  · next hne =>
    rcases parse_date_shape (cget row kComplaintDate (vStr [])) with h | ⟨d, hd⟩
    · exact absurd h hne
    · rw [hd]
      exact ⟨formatDate_ne_nil d, formatDate_ne_NA d⟩

theorem csvIncidentFinal_ok (today : Date) (row : Complaint) :
    csvIncidentFinal today row ≠ [] ∧ csvIncidentFinal today row ≠ NA := by
  unfold csvIncidentFinal
  split
  · exact csvDateFinal_ok today row
  · next hne =>
    rcases parse_date_shape (cget row kIncidentDate (vStr [])) with h | ⟨d, hd⟩
    · exact absurd h hne
    · rw [hd]
      exact ⟨formatDate_ne_nil d, formatDate_ne_NA d⟩

/-- C9: every record the tabular CSV strategy returns has a non-sentinel,
non-empty `Complaint_ID` and non-empty, non-sentinel complaint and
incident dates; and whenever the source identifier cell normalizes to the
sentinel (missing, blank, or null-like), the identifier is the synthetic
`CSV_<timestamp>_<row-index>`. -/
theorem csv_records_complete (nowStamp : Str) (today : Date) (rows : List Complaint) :
    (∀ c ∈ process_csv_rows nowStamp today rows,
      cget c kComplaintID vNone ≠ vStr NA ∧ cget c kComplaintID vNone ≠ vStr []
      ∧ cget c kComplaintDate vNone ≠ vStr [] ∧ cget c kComplaintDate vNone ≠ vStr NA
      ∧ cget c kIncidentDate vNone ≠ vStr [] ∧ cget c kIncidentDate vNone ≠ vStr NA)
    ∧ (∀ (idx : Nat) (row : Complaint),
        normalize_complaint_id (vStr (csvCell (normalizeHeaders row) kComplaintID)) = NA →
        cget (buildCsvComplaint nowStamp today idx row) kComplaintID vNone
          = vStr (csvPrefix ++ nowStamp ++ '_' :: natToStr idx)) := by
  constructor
  · intro c hc
    simp only [process_csv_rows, List.mem_map] at hc
    obtain ⟨p, _, rfl⟩ := hc
    have e1 : cget (buildCsvComplaint nowStamp today p.1 p.2) kComplaintID vNone
        = vStr (csvIdFinal nowStamp p.1 (normalizeHeaders p.2)) := rfl
    have e2 : cget (buildCsvComplaint nowStamp today p.1 p.2) kComplaintDate vNone
        = vStr (csvDateFinal today (normalizeHeaders p.2)) := rfl
    have e3 : cget (buildCsvComplaint nowStamp today p.1 p.2) kIncidentDate vNone
        = vStr (csvIncidentFinal today (normalizeHeaders p.2)) := rfl
    rw [e1, e2, e3]
    have hid := csvIdFinal_ok nowStamp p.1 (normalizeHeaders p.2)
    have hcd := csvDateFinal_ok today (normalizeHeaders p.2)
    have hin := csvIncidentFinal_ok today (normalizeHeaders p.2)
    refine ⟨?_, ?_, ?_, ?_, ?_, ?_⟩ <;> intro h <;> injection h with h2
    · exact hid.1 h2
    · exact hid.2 h2
    · exact hcd.1 h2
    · exact hcd.2 h2
    · exact hin.1 h2
    · exact hin.2 h2
  · intro idx row hna
    have e1 : cget (buildCsvComplaint nowStamp today idx row) kComplaintID vNone
        = vStr (csvIdFinal nowStamp idx (normalizeHeaders row)) := rfl
    rw [e1]
    unfold csvIdFinal
    rw [if_pos hna]

/-- Witness for C9 on a concrete empty row at index 0. -/
theorem csv_records_complete_witness :
    cget (buildCsvComplaint (r"20240101000000").data ⟨2024, 1, 1⟩ 0 []) kComplaintID vNone
      ≠ vStr NA
    ∧ cget (buildCsvComplaint (r"20240101000000").data ⟨2024, 1, 1⟩ 0 []) kComplaintID vNone
      = vStr (csvPrefix ++ (r"20240101000000").data ++ '_' :: natToStr 0) := by
  have h := csv_records_complete (r"20240101000000").data ⟨2024, 1, 1⟩ [[]]
  exact ⟨(h.1 _ (by decide)).1, h.2 0 [] (by decide)⟩

theorem toLower_eq_self_of (c : Char) (h : ¬ (c.toNat ≥ 65 ∧ c.toNat ≤ 90)) :
    c.toLower = c := by
  show (if c.toNat ≥ 65 ∧ c.toNat ≤ 90 then Char.ofNat (c.toNat + 32) else c) = c
  rw [if_neg h]

theorem toLower_shift (c : Char) (h1 : 65 ≤ c.toNat) (h2 : c.toNat ≤ 90) :
    97 ≤ c.toLower.toNat ∧ c.toLower.toNat ≤ 122 := by
  have hc : Char.ofNat c.toNat = c := Char.ofNat_toNat c
  interval_cases hn : c.toNat <;> (rw [← hc]; decide)

theorem toLower_ctrl_iff (c d : Char) (hd : d.toNat < 65) : c.toLower = d ↔ c = d := by
  constructor
  · intro h
    by_cases hc : c.toNat ≥ 65 ∧ c.toNat ≤ 90
    · exfalso
      have hs := (toLower_shift c hc.1 hc.2).1
      rw [h] at hs
      omega
    · rw [toLower_eq_self_of c hc] at h
      exact h
  · intro h
    subst h
    exact toLower_eq_self_of c (by omega)

theorem toLower_NL_iff (c : Char) : c.toLower = '\n' ↔ c = '\n' :=
  toLower_ctrl_iff c '\n' (by decide)

theorem lower_mapCR (c : Char) : Char.toLower (mapCR c) = mapCR (Char.toLower c) := by
  by_cases hr : c = '\r'
  · subst hr
    decide
  · rw [show mapCR c = c from if_neg hr]
    have h2 : Char.toLower c ≠ '\r' := fun h => hr ((toLower_ctrl_iff c '\r' (by decide)).mp h)
    rw [show mapCR c.toLower = c.toLower from if_neg h2]

theorem lower_map_mapCR (t : Str) :
    List.map Char.toLower (List.map mapCR t) = List.map mapCR (List.map Char.toLower t) := by
  simp only [List.map_map]
  apply List.map_congr_left
  intro c _
  simp only [Function.comp_apply]
  exact lower_mapCR c

theorem lower_collapseNL (s : Str) : ∀ b : Bool,
    List.map Char.toLower (collapseNLAux b s) = collapseNLAux b (List.map Char.toLower s) := by
  induction s with
  | nil => intro b; rfl
  | cons c r ih =>
    intro b
    by_cases hc : c = '\n'
    · subst hc
      cases b with
      | true =>
        have e1 : collapseNLAux true ('\n' :: r) = collapseNLAux true r := by
          simp [collapseNLAux]
        have e2 : collapseNLAux true (List.map Char.toLower ('\n' :: r))
            = collapseNLAux true (List.map Char.toLower r) := by
          rw [List.map_cons, show Char.toLower '\n' = '\n' from rfl]
          simp [collapseNLAux]
        rw [e1, e2, ih true]
      | false =>
        have e1 : collapseNLAux false ('\n' :: r) = '\n' :: collapseNLAux true r := by
          simp [collapseNLAux]
        have e2 : collapseNLAux false (List.map Char.toLower ('\n' :: r))
            = '\n' :: collapseNLAux true (List.map Char.toLower r) := by
          rw [List.map_cons, show Char.toLower '\n' = '\n' from rfl]
          simp [collapseNLAux]
        rw [e1, e2, List.map_cons, show Char.toLower '\n' = '\n' from rfl, ih true]
    · have hcl : Char.toLower c ≠ '\n' := fun h => hc ((toLower_NL_iff c).mp h)
      have e1 : collapseNLAux b (c :: r) = c :: collapseNLAux false r := by
        simp [collapseNLAux, hc]
      have e2 : collapseNLAux b (List.map Char.toLower (c :: r))
          = Char.toLower c :: collapseNLAux false (List.map Char.toLower r) := by
        rw [List.map_cons]
        simp [collapseNLAux, hcl]
      rw [e1, e2, List.map_cons, ih false]

theorem prefix_of_collapse : ∀ (s M : Str), ('\n' : Char) ∉ M →
    M <+: collapseNLAux false s → M <+: s := by
  intro s
  induction s with
  | nil => intro M hnl h; exact h
  | cons c r ih =>
    intro M hnl h
    by_cases hc : c = '\n'
    · subst hc
      rw [show collapseNLAux false ('\n' :: r) = '\n' :: collapseNLAux true r from by
        simp [collapseNLAux]] at h
      cases M with
      | nil => exact List.nil_prefix
      | cons m ms =>
        rw [List.cons_prefix_cons] at h
        exact absurd (h.1 ▸ List.mem_cons_self m ms) hnl
    · rw [show collapseNLAux false (c :: r) = c :: collapseNLAux false r from by
        simp [collapseNLAux, hc]] at h
      cases M with
      | nil => exact List.nil_prefix
      | cons m ms =>
        rw [List.cons_prefix_cons] at h ⊢
        exact ⟨h.1, ih ms (fun hm => hnl (List.mem_cons_of_mem m hm)) h.2⟩

theorem infix_of_collapse : ∀ (s : Str) (b : Bool) (M : Str), M ≠ [] →
    ('\n' : Char) ∉ M → M <:+: collapseNLAux b s → M <:+: s := by
  intro s
  induction s with
  | nil =>
    intro b M hne hnl h
    cases b <;>
      (rw [show collapseNLAux _ ([] : Str) = [] from rfl] at h
       exact absurd (List.sublist_nil.mp h.sublist) hne)
  | cons c r ih =>
    intro b M hne hnl h
    by_cases hc : c = '\n'
    · subst hc
      cases b with
      | true =>
        rw [show collapseNLAux true ('\n' :: r) = collapseNLAux true r from by
          simp [collapseNLAux]] at h
        exact List.infix_cons (ih true M hne hnl h)
      | false =>
        rw [show collapseNLAux false ('\n' :: r) = '\n' :: collapseNLAux true r from by
          simp [collapseNLAux]] at h
        rw [List.infix_cons_iff] at h
        rcases h with hpre | hinf
        · cases M with
          | nil => exact absurd rfl hne
          | cons m ms =>
            rw [List.cons_prefix_cons] at hpre
            exact absurd (hpre.1 ▸ List.mem_cons_self m ms) hnl
        · exact List.infix_cons (ih true M hne hnl hinf)
    · rw [show collapseNLAux b (c :: r) = c :: collapseNLAux false r from by
        simp [collapseNLAux, hc]] at h
      rw [List.infix_cons_iff] at h
      rcases h with hpre | hinf
      · cases M with
        | nil => exact absurd rfl hne
        | cons m ms =>
          rw [List.cons_prefix_cons] at hpre
          have hms : ms <+: r :=
            prefix_of_collapse r ms (fun hm => hnl (List.mem_cons_of_mem m hm)) hpre.2
          exact (List.cons_prefix_cons.mpr ⟨hpre.1, hms⟩).isInfix
      · exact List.infix_cons (ih false M hne hnl hinf)

theorem map_eq_append_decomp (f : Char → Char) :
    ∀ (a b l : Str), List.map f l = a ++ b →
      ∃ a2 b2, l = a2 ++ b2 ∧ List.map f a2 = a ∧ List.map f b2 = b := by
  intro a
  induction a with
  | nil => intro b l h; exact ⟨[], l, rfl, rfl, h⟩
  | cons x xs ih =>
    intro b l h
    cases l with
    | nil => simp at h
    | cons c r =>
      rw [List.map_cons, List.cons_append] at h
      have h1 : f c = x := (List.cons.injEq _ _ _ _ ▸ h).1
      have h2 : List.map f r = xs ++ b := (List.cons.injEq _ _ _ _ ▸ h).2
      obtain ⟨a2, b2, hl, ha2, hb2⟩ := ih b r h2
      exact ⟨c :: a2, b2, by rw [hl]; rfl, by rw [List.map_cons, ha2, h1], hb2⟩

theorem infix_of_map_mapCR (M u : Str) (hnl : ('\n' : Char) ∉ M)
    (h : M <:+: List.map mapCR u) : M <:+: u := by
  obtain ⟨pre, suf, hps⟩ := h
  obtain ⟨p2, rest2, hu, _, hrest2⟩ :=
    map_eq_append_decomp mapCR pre (M ++ suf) u (by rw [← List.append_assoc, hps])
  obtain ⟨m2, s2, hrest, hm2, _⟩ := map_eq_append_decomp mapCR M suf rest2 hrest2
  have hfix : ∀ c ∈ m2, mapCR c = c := by
    intro c hc
    by_cases hr : c = '\r'
    · exfalso
      have hmem : mapCR c ∈ M := hm2 ▸ List.mem_map_of_mem mapCR hc
      rw [hr] at hmem
      exact hnl (by simpa [mapCR] using hmem)
    · exact if_neg hr
  have hm2eq : m2 = M := by
    rw [← hm2]
    exact ((List.map_congr_left hfix).trans (List.map_id m2)).symm
  exact ⟨p2, s2, by rw [List.append_assoc, ← hm2eq, ← hrest, ← hu]⟩

theorem isPrefixCI_iff (m : Str) : ∀ h : Str,
    isPrefixCI m h = true ↔ List.map Char.toLower m <+: List.map Char.toLower h := by
  induction m with
  | nil => intro h; simp [isPrefixCI]
  | cons a as ih =>
    intro h
    cases h with
    | nil => simp [isPrefixCI]
    | cons b bs =>
      simp only [isPrefixCI, List.map_cons, List.cons_prefix_cons, Bool.and_eq_true,
        decide_eq_true_eq, ih]
      constructor
      · rintro ⟨h1, h2⟩; exact ⟨h1.symm, h2⟩
      · rintro ⟨h1, h2⟩; exact ⟨h1.symm, h2⟩

theorem findCI_none (m : Str) : ∀ h : Str,
    ¬ (List.map Char.toLower m <:+: List.map Char.toLower h) → findCI m h = none := by
  intro h
  induction h with
  | nil =>
    intro hn
    rw [findCI]
    cases hp : isPrefixCI m [] with
    | true => exact absurd (((isPrefixCI_iff m []).mp hp).isInfix) hn
    | false => simp
  | cons c r ih =>
    intro hn
    rw [findCI]
    cases hp : isPrefixCI m (c :: r) with
    | true => exact absurd (((isPrefixCI_iff m (c :: r)).mp hp).isInfix) hn
    | false =>
      simp only [Bool.false_eq_true, if_false]
      rw [ih (fun hinf => hn (by rw [List.map_cons]; exact List.infix_cons hinf))]
      rfl

theorem extract_section_of_no_marker (t m1 m2 : Str) (h : findCI m1 t = none) :
    extract_section t m1 m2 = [] := by
  unfold extract_section
  rw [h]

/-- C10: the document strategy looks for the identifier only inside the
section between the markers "Complaint Type" and "Complainant Details";
for any document text in which the first marker does not occur (even
case-insensitively, and even if a valid 10-digit acknowledgement number
appears elsewhere), the section is empty, no identifier is found, and
`process_pdf` yields the empty result. -/
theorem pdf_marker_required (t : Str)
    (h : containsSub (pyLower mComplaintType) (pyLower t) = false) :
    process_pdf_text t = [] := by
  have hninf : ¬ (List.map Char.toLower mComplaintType <:+: List.map Char.toLower t) := by
    intro hinf
    have := (containsSub_iff (pyLower mComplaintType) (pyLower t)).mpr hinf
    rw [h] at this
    exact Bool.false_ne_true this
  unfold process_pdf_text
  split
  · rfl
  · have hnorm : ¬ (List.map Char.toLower mComplaintType
        <:+: List.map Char.toLower (normalize_text t)) := by
      intro hinf
      apply hninf
      unfold normalize_text at hinf
      rw [lower_collapseNL, lower_map_mapCR] at hinf
      exact infix_of_map_mapCR _ _ (by decide)
        (infix_of_collapse _ false _ (by decide) (by decide) hinf)
    have hsec : extract_section (normalize_text t) mComplaintType mComplainantDetails = [] :=
      extract_section_of_no_marker _ _ _ (findCI_none _ _ hnorm)
    rw [hsec, show extract_complaint_id [] = [] from rfl]
    rw [if_pos (by decide)]

/-- Witness for C10: a long document text carrying a valid 10-digit
acknowledgement number but no "Complaint Type" marker yields no record. -/
theorem pdf_marker_required_witness : process_pdf_text pdfSampleNoId = [] :=
  pdf_marker_required pdfSampleNoId (by decide)

/-- C3 counterexample: the two identifier policies are mixed across
strategies. On a marker-free document text the document strategy rejects
the whole source (empty result, policy A), while on a tabular row with no
identifier cell at all the tabular strategy accepts the row and
synthesizes a timestamp-based `CSV_<stamp>_<idx>` identifier (policy B),
which is neither empty nor the sentinel. -/
theorem id_policy_mixed_cex :
    process_pdf_text pdfSampleNoId = []
    ∧ cget (buildCsvComplaint (r"20240101000001").data ⟨2024, 1, 1⟩ 7 []) kComplaintID vNone
        = vStr (csvPrefix ++ (r"20240101000001").data ++ '_' :: natToStr 7)
    ∧ csvPrefix ++ (r"20240101000001").data ++ '_' :: natToStr 7 ≠ NA
    ∧ csvPrefix ++ (r"20240101000001").data ++ '_' :: natToStr 7 ≠ [] :=
  ⟨by decide, by decide, by decide, by decide⟩

/-- C3 amended: no single policy spans both strategies; instead each
strategy applies its own policy consistently. The document strategy
follows policy A: whenever the identifier extracted from the section is
not a digit string of length at least 10, the whole document yields the
empty result. The tabular strategy follows policy B: whenever the
identifier cell normalizes to the sentinel, the built record carries the
synthesized timestamp identifier `CSV_<stamp>_<idx>`. -/
theorem id_policy_per_strategy :
    (∀ t : Str,
      validPdfId (extract_complaint_id
        (extract_section (normalize_text t) mComplaintType mComplainantDetails)) = false →
      process_pdf_text t = [])
    ∧ (∀ (nowStamp : Str) (today : Date) (idx : Nat) (row : Complaint),
        normalize_complaint_id (vStr (csvCell (normalizeHeaders row) kComplaintID)) = NA →
        cget (buildCsvComplaint nowStamp today idx row) kComplaintID vNone
          = vStr (csvPrefix ++ nowStamp ++ '_' :: natToStr idx)) := by
  constructor
  · intro t hv
    unfold process_pdf_text
    split
    · rfl
    · split
      · rfl
      · next hcon => exact absurd (hv ▸ not_not.mp hcon) Bool.false_ne_true
  · intro nowStamp today idx row hna
    have e1 : cget (buildCsvComplaint nowStamp today idx row) kComplaintID vNone
        = vStr (csvIdFinal nowStamp idx (normalizeHeaders row)) := rfl
    rw [e1]
    unfold csvIdFinal
    rw [if_pos hna]

/-- Witness for C3 at concrete inputs: a marker-free document is rejected,
and an empty tabular row at index 3 gets the synthesized identifier. -/
theorem id_policy_per_strategy_witness :
    process_pdf_text pdfSampleNoId = []
    ∧ cget (buildCsvComplaint (r"20240101120000").data ⟨2024, 1, 2⟩ 3 []) kComplaintID vNone
        = vStr (csvPrefix ++ (r"20240101120000").data ++ '_' :: natToStr 3) :=
  ⟨id_policy_per_strategy.1 pdfSampleNoId (by decide),
   id_policy_per_strategy.2 (r"20240101120000").data ⟨2024, 1, 2⟩ 3 [] (by decide)⟩
